import Mathlib

/-!
Shallow embedding of the tracking and behavior-scoring engine of the
poc-camera repository (Go).  Two variants of the engine exist in the
repository and both are embedded:

* `SL` — the log-throttling variant (the `shoplifting.go` that defines
  `ShouldLog` and `LastLogTimes`, together with its `config` package).
* `SLPose` — the variant with the optional pose analyzer
  (`internal/shoplifting/shoplifting.go`).

Conventions of the embedding:

* Pixel coordinates are exact integers (`ℤ`), as in the Go source
  (`image.Point`).
* Times are real numbers measured in seconds (`time.Time` and
  `time.Duration` are both mapped to `ℝ`); the Go zero value of
  `time.Time` is `0`.  The single `time.Now()` of a frame cycle is an
  explicit `now` parameter.
* Float arithmetic (`float64`/`float32`) is idealized as exact real
  arithmetic; `math.Sqrt` is `Real.sqrt`.
* The Go map `trackedPeople` is embedded as a list in insertion order
  (Go map iteration order is unspecified; the spec documents a stable
  iteration order as a design choice).  `LastLogTimes` is embedded as a
  function `String → Option ℝ`.
* Strings used only for human-readable output (`Description`,
  `Details`) are omitted; strings that drive control flow (behavior
  types, throttle keys) are kept.
-/

open Classical

abbrev Point := ℤ × ℤ

/-- `image.Rectangle`: an axis-aligned box given by its min and max corners. -/
structure Rectangle where
  min : Point
  max : Point

/-- `Rectangle.Dx`. -/
def Rectangle.dx (r : Rectangle) : ℤ := r.max.1 - r.min.1

/-- `Rectangle.Dy`. -/
def Rectangle.dy (r : Rectangle) : ℤ := r.max.2 - r.min.2

/-- The centroid `image.Pt(Box.Min.X+Box.Dx()/2, Box.Min.Y+Box.Dy()/2)`.
Go integer division truncates toward zero, hence `Int.tdiv`. -/
def rectCenter (r : Rectangle) : Point :=
  (r.min.1 + (r.dx).tdiv 2, r.min.2 + (r.dy).tdiv 2)

/-- The squared Euclidean distance
`(a.X-b.X)*(a.X-b.X) + (a.Y-b.Y)*(a.Y-b.Y)`. -/
def sqDist (a b : Point) : ℤ :=
  (a.1 - b.1) * (a.1 - b.1) + (a.2 - b.2) * (a.2 - b.2)

/-- `math.Sqrt` of the squared distance: the Euclidean distance used by
the associator and the analyzers. -/
noncomputable def distPx (a b : Point) : ℝ := Real.sqrt ((sqDist a b : ℤ) : ℝ)

namespace SL

/-- `DetectionResult`. -/
structure DetectionResult where
  classID : ℤ
  confidence : ℝ
  box : Rectangle
  label : String

/-- `TrackedPerson` (the field `SuspiciousCount` is never read by the
engine and is omitted). -/
structure TrackedPerson where
  id : ℤ
  lastSeen : ℝ
  positions : List Point
  loiteringTime : ℝ
  firstSeen : ℝ
  lastSuspiciousMovement : ℝ
  lastLogTimes : String → Option ℝ

/-- `SuspiciousBehavior` (the `Description` and `Details` strings are
omitted). -/
structure SuspiciousBehavior where
  type : String
  confidence : ℝ
  personID : ℤ
  location : Point
  shouldLog : Bool

/-- The engine-relevant fields of `config.Config` (model paths and UI
fields are never read by the tracking engine and are omitted). -/
structure Config where
  loiteringTimeThreshold : ℝ
  proximityThreshold : ℝ
  maxTrackedPeople : ℤ
  trackerTimeout : ℝ

/-- `config.DefaultConfig`, restricted to the engine-relevant fields. -/
def defaultConfig : Config :=
  { loiteringTimeThreshold := 20
    proximityThreshold := 80
    maxTrackedPeople := 50
    trackerTimeout := 5 }

/-- `config.GetValuableItems`, as a partial map from class id to label. -/
def getValuableItems (classID : ℤ) : Option String :=
  match classID with
  | 50 => some "telefone"
  | 51 => some "notebook"
  | 52 => some "tablet"
  | 53 => some "câmera"
  | 54 => some "fone de ouvido"
  | 100 => some "bolsa"
  | 101 => some "carteira"
  | 102 => some "relógio"
  | 200 => some "casaco"
  | 201 => some "tênis"
  | 202 => some "jaqueta"
  | 300 => some "perfume"
  | 301 => some "maquiagem"
  | 350 => some "vinho"
  | 351 => some "whisky"
  | 352 => some "chocolate premium"
  | _ => none

/-- The mutable state of `ShopliftingDetector`: the tracked-people map
(as a list in insertion order) and the next fresh identifier. -/
structure DetectorState where
  trackedPeople : List TrackedPerson
  nextPersonID : ℤ

/-- `NewShopliftingDetector`: empty store, identifiers start at 1. -/
def newShopliftingDetector : DetectorState :=
  { trackedPeople := [], nextPersonID := 1 }

/-- `filterPeople`: keep detections of class 0. -/
def filterPeople (detections : List DetectionResult) : List DetectionResult :=
  detections.filter (fun det => det.classID == 0)

/-- `filterValuableObjects`: keep detections whose class is in the
valuable-item catalog. -/
def filterValuableObjects (detections : List DetectionResult) : List DetectionResult :=
  detections.filter (fun det => (getValuableItems det.classID).isSome)

/-- The loop body of `findNearestTrackedPerson`: skip a track with an empty
history; otherwise keep the running minimum, improving it only strictly. -/
noncomputable def findNearestStep (center : Point) (acc : ℝ × Option ℤ)
    (tracked : TrackedPerson) : ℝ × Option ℤ :=
  match tracked.positions.getLast? with
  | none => acc
  | some lastPos =>
      if distPx center lastPos < acc.1 then (distPx center lastPos, some tracked.id)
      else acc

/-- `findNearestTrackedPerson`: running minimum starting at the proximity
threshold, strict improvement only; the Go sentinel `-1` (no match) is
`none`. -/
noncomputable def findNearestTrackedPerson (cfg : Config) (st : DetectorState)
    (center : Point) : Option ℤ :=
  (st.trackedPeople.foldl (findNearestStep center)
    ((cfg.proximityThreshold, none) : ℝ × Option ℤ)).2

/-- The unconditional per-detection update of `updateTracking`: refresh
`lastSeen`, append the centroid, recompute `loiteringTime`, and drop the
oldest entry once the history exceeds `maxPositions = 30`. -/
noncomputable def updateTrackedPerson (now : ℝ) (personCenter : Point)
    (t : TrackedPerson) : TrackedPerson :=
  let positions := t.positions ++ [personCenter]
  { t with
    lastSeen := now
    loiteringTime := now - t.firstSeen
    positions := if positions.length > 30 then positions.drop 1 else positions }

/-- The body of `updateTracking`'s loop for one detection.  In the source a
brand-new track is first inserted with `Positions = [personCenter]` and the
common update then runs on the stored entry; here the common update is
applied before insertion, with the same result. -/
noncomputable def updateOneDetection (cfg : Config) (now : ℝ) (st : DetectorState)
    (person : DetectionResult) : DetectorState :=
  let personCenter := rectCenter person.box
  match findNearestTrackedPerson cfg st personCenter with
  | some trackedID =>
      let refresh := fun t => if t.id = trackedID then updateTrackedPerson now personCenter t else t
      { st with trackedPeople := st.trackedPeople.map refresh }
  | none =>
      let newTrack : TrackedPerson :=
        { id := st.nextPersonID
          lastSeen := now
          positions := [personCenter]
          loiteringTime := 0
          firstSeen := now
          lastSuspiciousMovement := 0
          lastLogTimes := fun _ => none }
      { trackedPeople := st.trackedPeople ++ [updateTrackedPerson now personCenter newTrack]
        nextPersonID := st.nextPersonID + 1 }

/-- `updateTracking`: the per-detection loop, in arrival order. -/
noncomputable def updateTracking (cfg : Config) (now : ℝ)
    (people : List DetectionResult) (st : DetectorState) : DetectorState :=
  people.foldl (updateOneDetection cfg now) st

/-- `shouldLogBehavior`: the log-eligibility flag and the (possibly
updated) track.  The timestamp is written only on the `true` branch. -/
noncomputable def shouldLogBehavior (now : ℝ) (tracked : TrackedPerson)
    (behaviorType : String) : Bool × TrackedPerson :=
  match tracked.lastLogTimes behaviorType with
  | some lastLog =>
      if now - lastLog < 1 then (false, tracked)
      else (true, { tracked with lastLogTimes :=
        fun k => if k = behaviorType then some now else tracked.lastLogTimes k })
  | none =>
      (true, { tracked with lastLogTimes :=
        fun k => if k = behaviorType then some now else tracked.lastLogTimes k })

/-- The Go expression `tracked.Positions[len(tracked.Positions)-1]` panics on
an empty history; the embedding totalizes it with a default, and the
reachability invariant (claim C10) shows the history is never empty. -/
def lastPosition (t : TrackedPerson) : Point := (t.positions.getLast?).getD (0, 0)

/-- The loitering confidence `math.Min(loiteringTime/30.0, 1.0)`. -/
noncomputable def loiterConfidence (loiteringTime : ℝ) : ℝ := min (loiteringTime / 30) 1

/-- The proximity confidence `1.0 - distance/threshold`. -/
noncomputable def proxConfidence (threshold distance : ℝ) : ℝ := 1 - distance / threshold

/-- The `(directionChanges, significantMoves)` counts of
`analyzeSuspiciousMovement`: over the consecutive triplets of positions, a
triplet whose two displacement magnitudes both exceed `5` pixels is
significant, and counts as a direction change when the dot product of the
two displacement vectors is negative. -/
noncomputable def tripletCounts : List Point → ℕ × ℕ
  | p :: q :: r :: rest =>
      let acc := tripletCounts (q :: r :: rest)
      if distPx p q > 5 ∧ distPx q r > 5 then
        if (q.1 - p.1) * (r.1 - q.1) + (q.2 - p.2) * (r.2 - q.2) < 0 then
          (acc.1 + 1, acc.2 + 1)
        else (acc.1, acc.2 + 1)
      else acc
  | _ => (0, 0)

/-- `analyzeSuspiciousMovement`.  Both variants of the source compute this
same score; the log-throttling variant additionally assembles detail
strings, which the embedding omits. -/
noncomputable def analyzeSuspiciousMovement (positions : List Point) : ℝ :=
  if positions.length < 10 then 0 else
    let counts := tripletCounts positions
    let erratic : ℝ :=
      if 0 < counts.2 then
        let changeRate : ℝ := (counts.1 : ℝ) / (counts.2 : ℝ)
        if changeRate > 0.5 then changeRate * 0.6 else 0
      else 0
    let recent := positions.drop (positions.length - 10)
    let centerX : ℝ := ((recent.map (fun pos => (pos.1 : ℝ))).sum) / (recent.length : ℝ)
    let centerY : ℝ := ((recent.map (fun pos => (pos.2 : ℝ))).sum) / (recent.length : ℝ)
    let maxDistance : ℝ := recent.foldl
      (fun m pos =>
        let d := Real.sqrt (((pos.1 : ℝ) - centerX) * ((pos.1 : ℝ) - centerX) +
          ((pos.2 : ℝ) - centerY) * ((pos.2 : ℝ) - centerY))
        if d > m then d else m) 0
    let confined : ℝ := if maxDistance < 30 then 0.4 else 0
    let speeds : List ℝ := (positions.zip positions.tail).map (fun pq => distPx pq.1 pq.2)
    let inconsistent : ℝ :=
      if 5 < speeds.length then
        let avgSpeed := speeds.sum / (speeds.length : ℝ)
        let variance := (speeds.map (fun s => (s - avgSpeed) * (s - avgSpeed))).sum /
          (speeds.length : ℝ)
        if variance > 100 then 0.3 else 0
      else 0
    let score := erratic + confined + inconsistent
    if score > 1 then 1 else score

/-- The loitering block of `analyzeBehaviors` for one track. -/
noncomputable def loiteringBehaviors (cfg : Config) (now : ℝ)
    (tracked : TrackedPerson) : List SuspiciousBehavior × TrackedPerson :=
  if tracked.loiteringTime > cfg.loiteringTimeThreshold then
    let r := shouldLogBehavior now tracked "PERMANENCIA_EXCESSIVA"
    ([{ type := "PERMANENCIA_EXCESSIVA"
        confidence := loiterConfidence tracked.loiteringTime
        personID := tracked.id
        location := lastPosition tracked
        shouldLog := r.1 }], r.2)
  else ([], tracked)

/-- The loop body of the valuable-proximity block, for one valuable item. -/
noncomputable def proximityStep (cfg : Config) (now : ℝ) (tracked : TrackedPerson)
    (lastPos : Point) (acc : List SuspiciousBehavior × TrackedPerson)
    (valuable : DetectionResult) : List SuspiciousBehavior × TrackedPerson :=
  let valuableCenter := rectCenter valuable.box
  if distPx lastPos valuableCenter < cfg.proximityThreshold then
    let r := shouldLogBehavior now acc.2 ("PROXIMIDADE_SUSPEITA_" ++ valuable.label)
    (acc.1 ++ [{ type := "PROXIMIDADE_SUSPEITA"
                 confidence := proxConfidence cfg.proximityThreshold
                   (distPx lastPos valuableCenter)
                 personID := tracked.id
                 location := lastPos
                 shouldLog := r.1 }], r.2)
  else acc

/-- The valuable-proximity block of `analyzeBehaviors` for one track: one
behavior per valuable item closer than the proximity threshold. -/
noncomputable def proximityBehaviors (cfg : Config) (now : ℝ)
    (valuableObjects : List DetectionResult) (tracked : TrackedPerson) :
    List SuspiciousBehavior × TrackedPerson :=
  match tracked.positions.getLast? with
  | none => ([], tracked)
  | some lastPos =>
      valuableObjects.foldl (proximityStep cfg now tracked lastPos)
        (([], tracked) : List SuspiciousBehavior × TrackedPerson)

/-- The suspicious-movement block of `analyzeBehaviors` for one track:
gated on a history longer than 15, an 8-second cooldown since the last
movement alert and a score above 0.9; on firing the cooldown timestamp is
refreshed. -/
noncomputable def movementBehaviors (now : ℝ) (tracked : TrackedPerson) :
    List SuspiciousBehavior × TrackedPerson :=
  if 15 < tracked.positions.length then
    if now - tracked.lastSuspiciousMovement > 8 then
      let recentPositions := tracked.positions.drop (tracked.positions.length - 12)
      let movementScore := analyzeSuspiciousMovement recentPositions
      if movementScore > 0.9 then
        let r := shouldLogBehavior now tracked "MOVIMENTO_SUSPEITO"
        ([{ type := "MOVIMENTO_SUSPEITO"
            confidence := movementScore
            personID := tracked.id
            location := lastPosition tracked
            shouldLog := r.1 }], { r.2 with lastSuspiciousMovement := now })
      else ([], tracked)
    else ([], tracked)
  else ([], tracked)

/-- The per-track body of `analyzeBehaviors`: the three blocks in source
order, threading the track mutations (`lastLogTimes`,
`lastSuspiciousMovement`). -/
noncomputable def trackBehaviors (cfg : Config) (now : ℝ)
    (valuableObjects : List DetectionResult) (tracked : TrackedPerson) :
    List SuspiciousBehavior × TrackedPerson :=
  let l := loiteringBehaviors cfg now tracked
  let p := proximityBehaviors cfg now valuableObjects l.2
  let m := movementBehaviors now p.2
  (l.1 ++ p.1 ++ m.1, m.2)

/-- `analyzeBehaviors` over the whole store (the `people` parameter of the
source function is unused there and omitted here). -/
noncomputable def analyzeBehaviors (cfg : Config) (now : ℝ)
    (valuableObjects : List DetectionResult) (st : DetectorState) :
    List SuspiciousBehavior × DetectorState :=
  let r := st.trackedPeople.foldl
    (fun acc tracked =>
      let tb := trackBehaviors cfg now valuableObjects tracked
      (acc.1 ++ tb.1, acc.2 ++ [tb.2]))
    (([], []) : List SuspiciousBehavior × List TrackedPerson)
  (r.1, { st with trackedPeople := r.2 })

/-- `cleanupOldTracking`: delete every track unseen for longer than the
tracker timeout. -/
noncomputable def cleanupOldTracking (cfg : Config) (now : ℝ)
    (st : DetectorState) : DetectorState :=
  { st with trackedPeople := st.trackedPeople.filter (fun tracked =>
      if now - tracked.lastSeen > cfg.trackerTimeout then false else true) }

/-- `DetectShoplifting`: the full per-frame cycle, steps 2 to 5 (the
upstream detector call and the rendering are external collaborators). -/
noncomputable def detectShoplifting (cfg : Config) (now : ℝ)
    (detections : List DetectionResult) (st : DetectorState) :
    List SuspiciousBehavior × DetectorState :=
  let people := filterPeople detections
  let valuableObjects := filterValuableObjects detections
  let st1 := updateTracking cfg now people st
  let r := analyzeBehaviors cfg now valuableObjects st1
  (r.1, cleanupOldTracking cfg now r.2)

/-- Repeated `shouldLogBehavior` evaluations for one fixed behavior type
over a run: the time list gives, in order, the instants at which the
behavior condition held; the result pairs each instant with the emitted
log-eligibility flag, threading the track state through the evaluations. -/
noncomputable def runLog (behaviorType : String) :
    TrackedPerson → List ℝ → List (ℝ × Bool)
  | _, [] => []
  | tracked, time :: rest =>
      let r := shouldLogBehavior time tracked behaviorType
      (time, r.1) :: runLog behaviorType r.2 rest

end SL

namespace SLPose

/-- `PoseKeypoint`: a 2D position (float pixel coordinates) with a
per-point confidence. -/
structure PoseKeypoint where
  x : ℝ
  y : ℝ
  confidence : ℝ

/-- `PersonPose` (of the 17-keypoint COCO layout; the aggregate
`Confidence` and `BoundingBox` fields are never read by the analyzer and
are omitted). -/
structure PersonPose where
  keypoints : List PoseKeypoint

/-- `TrackedPerson` of the pose variant (`SuspiciousCount` is never read
and is omitted). -/
structure TrackedPerson where
  id : ℤ
  lastSeen : ℝ
  positions : List Point
  poses : List PersonPose
  loiteringTime : ℝ
  firstSeen : ℝ
  lastSuspiciousMovement : ℝ

/-- `SuspiciousBehavior` of the pose variant (no throttling flag; the
`Description` string is omitted). -/
structure SuspiciousBehavior where
  type : String
  confidence : ℝ
  personID : ℤ
  location : Point

/-- The engine-relevant fields of the pose variant's `config.Config`. -/
structure Config where
  suspiciousPoseThreshold : ℝ
  loiteringTimeThreshold : ℝ
  proximityThreshold : ℝ
  maxTrackedPeople : ℤ
  maxPoseHistory : ℕ
  trackerTimeout : ℝ

/-- The pose variant's `config.DefaultConfig`, restricted to the
engine-relevant fields. -/
def defaultConfig : Config :=
  { suspiciousPoseThreshold := 0.8
    loiteringTimeThreshold := 10
    proximityThreshold := 80
    maxTrackedPeople := 50
    maxPoseHistory := 30
    trackerTimeout := 5 }

/-- The default keypoint (the Go zero value), used to totalize the index
accesses `pose.Keypoints[i]`, which the source guards by
`len(pose.Keypoints) < 17`. -/
def zeroKeypoint : PoseKeypoint := { x := 0, y := 0, confidence := 0 }

/-- `analyzeSuspiciousPose`: zero for fewer than 17 keypoints; otherwise a
crouch contribution of 0.4 (shoulders vertically within 50 px of the hips,
all four keypoints confident) plus a concealment contribution of 0.3 (both
wrists horizontally within 30 px of the shoulder-center line, both wrists
confident), accumulated in source order. -/
noncomputable def analyzeSuspiciousPose (pose : PersonPose) : ℝ :=
  if pose.keypoints.length < 17 then 0 else
    let leftShoulder := pose.keypoints.getD 5 zeroKeypoint
    let rightShoulder := pose.keypoints.getD 6 zeroKeypoint
    let leftHip := pose.keypoints.getD 11 zeroKeypoint
    let rightHip := pose.keypoints.getD 12 zeroKeypoint
    let crouch : ℝ :=
      if leftShoulder.confidence > 0.3 ∧ rightShoulder.confidence > 0.3 ∧
          leftHip.confidence > 0.3 ∧ rightHip.confidence > 0.3 then
        let shoulderY := (leftShoulder.y + rightShoulder.y) / 2
        let hipY := (leftHip.y + rightHip.y) / 2
        if |shoulderY - hipY| < 50 then 0.4 else 0
      else 0
    let leftWrist := pose.keypoints.getD 9 zeroKeypoint
    let rightWrist := pose.keypoints.getD 10 zeroKeypoint
    let conceal : ℝ :=
      if leftWrist.confidence > 0.3 ∧ rightWrist.confidence > 0.3 then
        let bodyCenter := (leftShoulder.x + rightShoulder.x) / 2
        if |leftWrist.x - bodyCenter| < 30 ∧ |rightWrist.x - bodyCenter| < 30 then 0.3
        else 0
      else 0
    crouch + conceal

/-- The Go expression `tracked.Positions[len(tracked.Positions)-1]` of the
pose variant, totalized with a default (compare `SL.lastPosition`). -/
def lastPosition (t : TrackedPerson) : Point := (t.positions.getLast?).getD (0, 0)

/-- The loitering block of the pose variant's `analyzeBehaviors` for one
track. -/
noncomputable def loiteringBehaviors (cfg : Config) (tracked : TrackedPerson) :
    List SuspiciousBehavior :=
  if tracked.loiteringTime > cfg.loiteringTimeThreshold then
    [{ type := "LOITERING"
       confidence := min (tracked.loiteringTime / 30) 1
       personID := tracked.id
       location := lastPosition tracked }]
  else []

/-- The loop body of the pose variant's valuable-proximity block. -/
noncomputable def proximityStep (cfg : Config) (tracked : TrackedPerson)
    (lastPos : Point) (acc : List SuspiciousBehavior)
    (valuable : SL.DetectionResult) : List SuspiciousBehavior :=
  let valuableCenter := rectCenter valuable.box
  if distPx lastPos valuableCenter < cfg.proximityThreshold then
    acc ++ [{ type := "VALUABLE_PROXIMITY"
              confidence := 1 - distPx lastPos valuableCenter / cfg.proximityThreshold
              personID := tracked.id
              location := lastPos }]
  else acc

/-- The valuable-proximity block of the pose variant's `analyzeBehaviors`
for one track. -/
noncomputable def proximityBehaviors (cfg : Config)
    (valuableObjects : List SL.DetectionResult) (tracked : TrackedPerson) :
    List SuspiciousBehavior :=
  match tracked.positions.getLast? with
  | none => []
  | some lastPos =>
      valuableObjects.foldl (proximityStep cfg tracked lastPos)
        ([] : List SuspiciousBehavior)

/-- The suspicious-movement block of the pose variant's `analyzeBehaviors`
for one track (same gates as the log-throttling variant; the score is the
shared `SL.analyzeSuspiciousMovement`). -/
noncomputable def movementBehaviors (now : ℝ) (tracked : TrackedPerson) :
    List SuspiciousBehavior × TrackedPerson :=
  if 15 < tracked.positions.length then
    if now - tracked.lastSuspiciousMovement > 8 then
      let recentPositions := tracked.positions.drop (tracked.positions.length - 12)
      let movementScore := SL.analyzeSuspiciousMovement recentPositions
      if movementScore > 0.9 then
        ([{ type := "SUSPICIOUS_MOVEMENT"
            confidence := movementScore
            personID := tracked.id
            location := lastPosition tracked }],
         { tracked with lastSuspiciousMovement := now })
      else ([], tracked)
    else ([], tracked)
  else ([], tracked)

/-- The suspicious-pose block of the pose variant's `analyzeBehaviors` for
one track: entirely skipped when pose estimation is disabled or the track
has no pose history. -/
noncomputable def poseBehaviors (cfg : Config) (poseEnabled : Bool)
    (tracked : TrackedPerson) : List SuspiciousBehavior :=
  if poseEnabled ∧ tracked.poses ≠ [] then
    let lastPose := (tracked.poses.getLast?).getD { keypoints := [] }
    let suspiciousScore := analyzeSuspiciousPose lastPose
    if suspiciousScore > cfg.suspiciousPoseThreshold then
      [{ type := "SUSPICIOUS_POSE"
         confidence := suspiciousScore
         personID := tracked.id
         location := lastPosition tracked }]
    else []
  else []

/-- The per-track body of the pose variant's `analyzeBehaviors`: the four
blocks in source order (loitering, proximity, movement, pose); only the
movement block mutates the track. -/
noncomputable def trackBehaviors (cfg : Config) (now : ℝ) (poseEnabled : Bool)
    (valuableObjects : List SL.DetectionResult) (tracked : TrackedPerson) :
    List SuspiciousBehavior × TrackedPerson :=
  let l := loiteringBehaviors cfg tracked
  let p := proximityBehaviors cfg valuableObjects tracked
  let m := movementBehaviors now tracked
  let s := poseBehaviors cfg poseEnabled m.2
  (l ++ p ++ m.1 ++ s, m.2)

end SLPose

namespace SL

/-! Concrete inputs for the scenario conjuncts of the claims. -/

/-- A person detection whose bounding box degenerates to the origin, so its
centroid is `(0, 0)`. -/
def personDet : DetectionResult :=
  { classID := 0, confidence := 1, box := { min := (0, 0), max := (0, 0) }, label := "person" }

/-- A person detection far from the origin (centroid `(1000, 0)`). -/
def farPersonDet : DetectionResult :=
  { classID := 0, confidence := 1, box := { min := (1000, 0), max := (1000, 0) }, label := "person" }

/-- A valuable-item detection (class 50, a phone) whose centroid is
`(30, 40)`, i.e. 50 pixels from the origin. -/
def phoneDet : DetectionResult :=
  { classID := 50, confidence := 1, box := { min := (20, 30), max := (40, 50) }, label := "telefone" }

/-- A freshly created track sitting at the origin. -/
def track0 : TrackedPerson :=
  { id := 1, lastSeen := 0, positions := [(0, 0)], loiteringTime := 0,
    firstSeen := 0, lastSuspiciousMovement := 0, lastLogTimes := fun _ => none }

/-- The track of scenario A: present for 25 seconds. -/
def track25 : TrackedPerson :=
  { id := 1, lastSeen := 25, positions := [(0, 0)], loiteringTime := 25,
    firstSeen := 0, lastSuspiciousMovement := 0, lastLogTimes := fun _ => none }

/-- `track0` after one log-eligible throttle evaluation of type `"X"` at
time 0. -/
noncomputable def track0X : TrackedPerson :=
  { track0 with lastLogTimes :=
    (fun k => if k = "X" then some 0 else track0.lastLogTimes k) }

/-- The configuration of the resource-bounding counterexample: a capacity
of one tracked entity. -/
def cfgC8 : Config := { defaultConfig with maxTrackedPeople := 1 }

/-- The identifier invariant: every stored track's identifier is below the
next fresh identifier. -/
def idBound (st : DetectorState) : Prop :=
  ∀ t ∈ st.trackedPeople, t.id < st.nextPersonID

/-- The detector states reachable from construction through any sequence
of per-frame cycles. -/
inductive Reachable (cfg : Config) : DetectorState → Prop
  | init : Reachable cfg newShopliftingDetector
  | step (st : DetectorState) (now : ℝ) (dets : List DetectionResult) :
      Reachable cfg st → Reachable cfg (detectShoplifting cfg now dets st).2

end SL

/-! Helper lemmas about the embedded distance. -/

lemma sqDist_nonneg (a b : Point) : 0 ≤ sqDist a b :=
  add_nonneg (mul_self_nonneg _) (mul_self_nonneg _)

lemma sqDist_self (a : Point) : sqDist a a = 0 := by simp [sqDist]

lemma distPx_nonneg (a b : Point) : 0 ≤ distPx a b := Real.sqrt_nonneg _

lemma distPx_self (a : Point) : distPx a a = 0 := by
  simp [distPx, sqDist_self]

lemma distPx_lt_iff {a b : Point} {t : ℝ} (ht : 0 < t) :
    distPx a b < t ↔ ((sqDist a b : ℤ) : ℝ) < t ^ 2 :=
  Real.sqrt_lt' ht

lemma distPx_eq_of_sq {a b : Point} {k : ℝ} (hk : 0 ≤ k)
    (h : ((sqDist a b : ℤ) : ℝ) = k ^ 2) : distPx a b = k := by
  rw [distPx, h, Real.sqrt_sq hk]

namespace SL

/-! Helper lemmas: the analyzer blocks mutate only the throttling state
(`lastLogTimes`) and the movement cooldown (`lastSuspiciousMovement`). -/

lemma shouldLogBehavior_snd (now : ℝ) (t : TrackedPerson) (bt : String) :
    ∃ f, (shouldLogBehavior now t bt).2 = { t with lastLogTimes := f } := by
  unfold shouldLogBehavior
  cases h : t.lastLogTimes bt with
  | none => exact ⟨_, rfl⟩
  | some lastLog =>
      by_cases hlt : now - lastLog < 1
      · exact ⟨t.lastLogTimes, by simp [hlt]⟩
      · exact ⟨fun k => if k = bt then some now else t.lastLogTimes k, by simp [hlt]⟩

lemma proximityBehaviors_snd (cfg : Config) (now : ℝ)
    (vs : List DetectionResult) (t : TrackedPerson) :
    ∃ f, (proximityBehaviors cfg now vs t).2 = { t with lastLogTimes := f } := by
  unfold proximityBehaviors
  cases hl : t.positions.getLast? with
  | none => exact ⟨t.lastLogTimes, rfl⟩
  | some lastPos =>
      suffices h : ∀ (vs : List DetectionResult)
          (acc : List SuspiciousBehavior × TrackedPerson),
          (∃ f, acc.2 = { t with lastLogTimes := f }) →
          ∃ f, (vs.foldl (proximityStep cfg now t lastPos) acc).2 =
            { t with lastLogTimes := f } by
        exact h vs ([], t) ⟨t.lastLogTimes, rfl⟩
      intro vs
      induction vs with
      | nil => intro acc hacc; exact hacc
      | cons v vs ih =>
          intro acc hacc
          apply ih
          obtain ⟨f, hf⟩ := hacc
          unfold proximityStep
          by_cases hd : distPx lastPos (rectCenter v.box) < cfg.proximityThreshold
          · simp only [hd, if_pos]
            obtain ⟨g, hg⟩ := shouldLogBehavior_snd now acc.2 ("PROXIMIDADE_SUSPEITA_" ++ v.label)
            exact ⟨_, by rw [hg, hf]⟩
          · simp only [hd, if_neg, not_false_iff]
            exact ⟨f, hf⟩

lemma loiteringBehaviors_snd (cfg : Config) (now : ℝ) (t : TrackedPerson) :
    ∃ f, (loiteringBehaviors cfg now t).2 = { t with lastLogTimes := f } := by
  unfold loiteringBehaviors
  by_cases h : t.loiteringTime > cfg.loiteringTimeThreshold
  · simp only [h, if_pos]
    exact shouldLogBehavior_snd now t "PERMANENCIA_EXCESSIVA"
  · exact ⟨t.lastLogTimes, by simp [h]⟩

lemma movementBehaviors_snd (now : ℝ) (t : TrackedPerson) :
    ∃ f m, (movementBehaviors now t).2 =
      { t with lastLogTimes := f, lastSuspiciousMovement := m } := by
  unfold movementBehaviors
  by_cases h1 : 15 < t.positions.length
  · by_cases h2 : now - t.lastSuspiciousMovement > 8
    · by_cases h3 : analyzeSuspiciousMovement
          (t.positions.drop (t.positions.length - 12)) > 0.9
      · simp only [h1, h2, h3, if_pos]
        obtain ⟨f, hf⟩ := shouldLogBehavior_snd now t "MOVIMENTO_SUSPEITO"
        exact ⟨f, now, by rw [hf]⟩
      · exact ⟨t.lastLogTimes, t.lastSuspiciousMovement, by simp [h1, h2, h3]⟩
    · exact ⟨t.lastLogTimes, t.lastSuspiciousMovement, by simp [h1, h2]⟩
  · exact ⟨t.lastLogTimes, t.lastSuspiciousMovement, by simp [h1]⟩

lemma trackBehaviors_snd (cfg : Config) (now : ℝ) (vs : List DetectionResult)
    (t : TrackedPerson) :
    ∃ f m, (trackBehaviors cfg now vs t).2 =
      { t with lastLogTimes := f, lastSuspiciousMovement := m } := by
  unfold trackBehaviors
  dsimp only
  obtain ⟨f1, h1⟩ := loiteringBehaviors_snd cfg now t
  obtain ⟨f2, h2⟩ := proximityBehaviors_snd cfg now vs (loiteringBehaviors cfg now t).2
  obtain ⟨f3, m3, h3⟩ := movementBehaviors_snd now
    (proximityBehaviors cfg now vs (loiteringBehaviors cfg now t).2).2
  refine ⟨f3, m3, ?_⟩
  rw [h3, h2, h1]

lemma trackBehaviors_snd_positions (cfg : Config) (now : ℝ)
    (vs : List DetectionResult) (t : TrackedPerson) :
    (trackBehaviors cfg now vs t).2.positions = t.positions := by
  obtain ⟨f, m, h⟩ := trackBehaviors_snd cfg now vs t
  rw [h]

lemma trackBehaviors_snd_id (cfg : Config) (now : ℝ)
    (vs : List DetectionResult) (t : TrackedPerson) :
    (trackBehaviors cfg now vs t).2.id = t.id := by
  obtain ⟨f, m, h⟩ := trackBehaviors_snd cfg now vs t
  rw [h]

lemma trackBehaviors_snd_lastSeen (cfg : Config) (now : ℝ)
    (vs : List DetectionResult) (t : TrackedPerson) :
    (trackBehaviors cfg now vs t).2.lastSeen = t.lastSeen := by
  obtain ⟨f, m, h⟩ := trackBehaviors_snd cfg now vs t
  rw [h]

lemma analyzeBehaviors_tracks (cfg : Config) (now : ℝ)
    (vs : List DetectionResult) (st : DetectorState) :
    (analyzeBehaviors cfg now vs st).2.trackedPeople =
      st.trackedPeople.map (fun t => (trackBehaviors cfg now vs t).2) := by
  unfold analyzeBehaviors
  suffices h : ∀ (l : List TrackedPerson)
      (acc : List SuspiciousBehavior × List TrackedPerson),
      (l.foldl (fun acc tracked =>
        let tb := trackBehaviors cfg now vs tracked
        (acc.1 ++ tb.1, acc.2 ++ [tb.2])) acc).2 =
      acc.2 ++ l.map (fun t => (trackBehaviors cfg now vs t).2) by
    simpa using h st.trackedPeople ([], [])
  intro l
  induction l with
  | nil => intro acc; simp
  | cons x xs ih => intro acc; simp [ih]
end SL

namespace SL

/-- Invariant of the `findNearestTrackedPerson` fold: the running minimum
only decreases, ends below every candidate distance, and either the
accumulator is returned unchanged or some track's last position realizes
the final minimum, strictly below the initial one. -/
lemma findNearest_fold_spec (center : Point) :
    ∀ (tracks : List TrackedPerson) (acc : ℝ × Option ℤ),
      (tracks.foldl (findNearestStep center) acc).1 ≤ acc.1 ∧
      (∀ u ∈ tracks, ∀ lp, u.positions.getLast? = some lp →
        (tracks.foldl (findNearestStep center) acc).1 ≤ distPx center lp) ∧
      (tracks.foldl (findNearestStep center) acc = acc ∨
        ∃ u ∈ tracks, ∃ lp, u.positions.getLast? = some lp ∧
          (tracks.foldl (findNearestStep center) acc).2 = some u.id ∧
          (tracks.foldl (findNearestStep center) acc).1 = distPx center lp ∧
          distPx center lp < acc.1) := by
  intro tracks
  induction tracks with
  | nil => exact fun acc => ⟨le_refl _, by simp, Or.inl rfl⟩
  | cons u us ih =>
      intro acc
      have hstep : (u :: us).foldl (findNearestStep center) acc =
          us.foldl (findNearestStep center) (findNearestStep center acc u) := rfl
      obtain ⟨ih1, ih2, ih3⟩ := ih (findNearestStep center acc u)
      cases hl : u.positions.getLast? with
      | none =>
          have hacc : findNearestStep center acc u = acc := by
            unfold findNearestStep; rw [hl]
          rw [hstep, hacc]
          rw [hacc] at ih1 ih2 ih3
          refine ⟨ih1, ?_, ?_⟩
          · intro v hv lp hlp
            rcases List.mem_cons.mp hv with h | h
            · subst h; rw [hl] at hlp; exact absurd hlp (by simp)
            · exact ih2 v h lp hlp
          · rcases ih3 with h | ⟨v, hv, lp, hlp, h2, h3, h4⟩
            · exact Or.inl h
            · exact Or.inr ⟨v, List.mem_cons_of_mem _ hv, lp, hlp, h2, h3, h4⟩
      | some lp =>
          by_cases hd : distPx center lp < acc.1
          · have hacc : findNearestStep center acc u = (distPx center lp, some u.id) := by
              unfold findNearestStep; rw [hl]; exact if_pos hd
            rw [hstep, hacc]
            rw [hacc] at ih1 ih2 ih3
            refine ⟨le_of_lt (lt_of_le_of_lt ih1 hd), ?_, ?_⟩
            · intro v hv lp' hlp'
              rcases List.mem_cons.mp hv with h | h
              · subst h
                rw [hl] at hlp'
                cases hlp'
                exact ih1
              · exact ih2 v h lp' hlp'
            · rcases ih3 with h | ⟨v, hv, lp', hlp', h2, h3, h4⟩
              · refine Or.inr ⟨u, List.mem_cons_self u us, lp, hl, ?_, ?_, hd⟩
                · rw [h]
                · rw [h]
              · exact Or.inr ⟨v, List.mem_cons_of_mem _ hv, lp', hlp', h2, h3,
                  lt_trans h4 hd⟩
          · have hacc : findNearestStep center acc u = acc := by
              unfold findNearestStep; rw [hl]; exact if_neg hd
            rw [hstep, hacc]
            rw [hacc] at ih1 ih2 ih3
            refine ⟨ih1, ?_, ?_⟩
            · intro v hv lp' hlp'
              rcases List.mem_cons.mp hv with h | h
              · subst h
                rw [hl] at hlp'
                cases hlp'
                exact le_trans ih1 (not_lt.mp hd)
              · exact ih2 v h lp' hlp'
            · rcases ih3 with h | ⟨v, hv, lp', hlp', h2, h3, h4⟩
              · exact Or.inl h
              · exact Or.inr ⟨v, List.mem_cons_of_mem _ hv, lp', hlp', h2, h3, h4⟩

/-- When the associator returns a match, the matched identifier belongs to a
track whose last position is strictly within the proximity threshold and is
nearest among all tracks with a recorded position. -/
lemma findNearest_some_spec (cfg : Config) (st : DetectorState) (center : Point)
    (tid : ℤ) (h : findNearestTrackedPerson cfg st center = some tid) :
    ∃ u ∈ st.trackedPeople, u.id = tid ∧ ∃ lp, u.positions.getLast? = some lp ∧
      distPx center lp < cfg.proximityThreshold ∧
      ∀ v ∈ st.trackedPeople, ∀ lp', v.positions.getLast? = some lp' →
        distPx center lp ≤ distPx center lp' := by
  obtain ⟨h1, h2, h3⟩ := findNearest_fold_spec center st.trackedPeople
    ((cfg.proximityThreshold, none) : ℝ × Option ℤ)
  rcases h3 with heq | ⟨u, hu, lp, hlp, hid, hmin, hlt⟩
  · exfalso
    unfold findNearestTrackedPerson at h
    rw [heq] at h
    exact Option.noConfusion h
  · unfold findNearestTrackedPerson at h
    rw [hid] at h
    cases h
    refine ⟨u, hu, rfl, lp, hlp, hlt, ?_⟩
    intro v hv lp' hlp'
    have := h2 v hv lp' hlp'
    rw [hmin] at this
    exact this

/-- When the associator finds no match, every track with a recorded position
is at or beyond the proximity threshold. -/
lemma findNearest_none_spec (cfg : Config) (st : DetectorState) (center : Point)
    (h : findNearestTrackedPerson cfg st center = none) :
    ∀ v ∈ st.trackedPeople, ∀ lp, v.positions.getLast? = some lp →
      cfg.proximityThreshold ≤ distPx center lp := by
  obtain ⟨h1, h2, h3⟩ := findNearest_fold_spec center st.trackedPeople
    ((cfg.proximityThreshold, none) : ℝ × Option ℤ)
  rcases h3 with heq | ⟨u, hu, lp, hlp, hid, hmin, hlt⟩
  · intro v hv lp hlp
    have := h2 v hv lp hlp
    rw [heq] at this
    exact this
  · exfalso
    unfold findNearestTrackedPerson at h
    rw [hid] at h
    exact Option.noConfusion h

end SL

namespace SL

/-! Membership characterization of the valuable-proximity fold. -/

lemma proxFold_mono (cfg : Config) (now : ℝ) (t : TrackedPerson) (lastPos : Point) :
    ∀ (vs : List DetectionResult) (acc : List SuspiciousBehavior × TrackedPerson),
      ∀ b ∈ acc.1, b ∈ (vs.foldl (proximityStep cfg now t lastPos) acc).1 := by
  intro vs
  induction vs with
  | nil => intro acc b hb; exact hb
  | cons w ws ih =>
      intro acc b hb
      apply ih
      unfold proximityStep
      by_cases hd : distPx lastPos (rectCenter w.box) < cfg.proximityThreshold
      · simp only [hd, if_pos]
        exact List.mem_append_left _ hb
      · simpa [hd] using hb

lemma proxFold_mem_intro (cfg : Config) (now : ℝ) (t : TrackedPerson) (lastPos : Point) :
    ∀ (vs : List DetectionResult) (acc : List SuspiciousBehavior × TrackedPerson)
      (v : DetectionResult), v ∈ vs →
      distPx lastPos (rectCenter v.box) < cfg.proximityThreshold →
      ∃ b ∈ (vs.foldl (proximityStep cfg now t lastPos) acc).1,
        b.type = "PROXIMIDADE_SUSPEITA" ∧
        b.confidence = proxConfidence cfg.proximityThreshold
          (distPx lastPos (rectCenter v.box)) ∧
        b.personID = t.id ∧ b.location = lastPos := by
  intro vs
  induction vs with
  | nil => intro acc v hv; exact absurd hv (List.not_mem_nil v)
  | cons w ws ih =>
      intro acc v hv hd
      rcases List.mem_cons.mp hv with h | h
      · subst h
        refine ⟨{ type := "PROXIMIDADE_SUSPEITA"
                  confidence := proxConfidence cfg.proximityThreshold
                    (distPx lastPos (rectCenter v.box))
                  personID := t.id
                  location := lastPos
                  shouldLog := (shouldLogBehavior now acc.2
                    ("PROXIMIDADE_SUSPEITA_" ++ v.label)).1 }, ?_, rfl, rfl, rfl, rfl⟩
        have hstep : (v :: ws).foldl (proximityStep cfg now t lastPos) acc =
            ws.foldl (proximityStep cfg now t lastPos)
              (proximityStep cfg now t lastPos acc v) := rfl
        rw [hstep]
        apply proxFold_mono
        unfold proximityStep
        simp only [hd, if_pos]
        exact List.mem_append_right _ (List.mem_singleton.mpr rfl)
      · exact ih (proximityStep cfg now t lastPos acc w) v h hd

lemma proxFold_mem_elim (cfg : Config) (now : ℝ) (t : TrackedPerson) (lastPos : Point) :
    ∀ (vs : List DetectionResult) (acc : List SuspiciousBehavior × TrackedPerson)
      (b : SuspiciousBehavior), b ∈ (vs.foldl (proximityStep cfg now t lastPos) acc).1 →
      b ∈ acc.1 ∨ ∃ v ∈ vs,
        distPx lastPos (rectCenter v.box) < cfg.proximityThreshold ∧
        b.type = "PROXIMIDADE_SUSPEITA" ∧
        b.confidence = proxConfidence cfg.proximityThreshold
          (distPx lastPos (rectCenter v.box)) ∧
        b.personID = t.id ∧ b.location = lastPos := by
  intro vs
  induction vs with
  | nil => intro acc b hb; exact Or.inl hb
  | cons w ws ih =>
      intro acc b hb
      rcases ih (proximityStep cfg now t lastPos acc w) b hb with h | ⟨v, hv, hrest⟩
      · unfold proximityStep at h
        by_cases hd : distPx lastPos (rectCenter w.box) < cfg.proximityThreshold
        · simp only [hd, if_pos] at h
          rcases List.mem_append.mp h with h1 | h1
          · exact Or.inl h1
          · rcases List.mem_singleton.mp h1 with rfl
            exact Or.inr ⟨w, List.mem_cons_self w ws, hd, rfl, rfl, rfl, rfl⟩
        · simp only [hd, if_neg, not_false_iff] at h
          exact Or.inl h
      · exact Or.inr ⟨v, List.mem_cons_of_mem _ hv, hrest⟩

/-- Completeness of the proximity analyzer: every valuable item within the
threshold yields an emitted behavior with the specified fields. -/
lemma proximityBehaviors_complete (cfg : Config) (now : ℝ)
    (vs : List DetectionResult) (t : TrackedPerson) (lastPos : Point)
    (hl : t.positions.getLast? = some lastPos) (v : DetectionResult) (hv : v ∈ vs)
    (hd : distPx lastPos (rectCenter v.box) < cfg.proximityThreshold) :
    ∃ b ∈ (proximityBehaviors cfg now vs t).1,
      b.type = "PROXIMIDADE_SUSPEITA" ∧
      b.confidence = proxConfidence cfg.proximityThreshold
        (distPx lastPos (rectCenter v.box)) ∧
      b.personID = t.id ∧ b.location = lastPos := by
  unfold proximityBehaviors
  rw [hl]
  exact proxFold_mem_intro cfg now t lastPos vs ([], t) v hv hd

/-- Soundness of the proximity analyzer: every emitted behavior comes from a
valuable item within the threshold and carries the specified fields. -/
lemma proximityBehaviors_sound (cfg : Config) (now : ℝ)
    (vs : List DetectionResult) (t : TrackedPerson) (lastPos : Point)
    (hl : t.positions.getLast? = some lastPos) (b : SuspiciousBehavior)
    (hb : b ∈ (proximityBehaviors cfg now vs t).1) :
    ∃ v ∈ vs, distPx lastPos (rectCenter v.box) < cfg.proximityThreshold ∧
      b.type = "PROXIMIDADE_SUSPEITA" ∧
      b.confidence = proxConfidence cfg.proximityThreshold
        (distPx lastPos (rectCenter v.box)) ∧
      b.personID = t.id ∧ b.location = lastPos := by
  unfold proximityBehaviors at hb
  rw [hl] at hb
  rcases proxFold_mem_elim cfg now t lastPos vs ([], t) b hb with h | h
  · exact absurd h (List.not_mem_nil b)
  · exact h

end SL

/-- Claim C3: the loitering analyzer emits a behavior for a track exactly when
the dwell time (set to `now - firstSeen` by every per-frame update) exceeds
`loiteringTimeThreshold`, with confidence `min(dwell/30, 1)` over the fixed
30-second normalization window; the confidence is monotonically non-decreasing
in the dwell time and never exceeds 1; the window 30 exceeds the default
threshold 20, and 25 seconds of presence yields an alert of confidence
`5/6 ≈ 0.833`. -/
theorem C3_loitering_analyzer :
    (∀ (cfg : SL.Config) (now : ℝ) (t : SL.TrackedPerson),
      t.loiteringTime > cfg.loiteringTimeThreshold →
        (SL.loiteringBehaviors cfg now t).1 =
          [{ type := "PERMANENCIA_EXCESSIVA"
             confidence := SL.loiterConfidence t.loiteringTime
             personID := t.id
             location := SL.lastPosition t
             shouldLog := (SL.shouldLogBehavior now t "PERMANENCIA_EXCESSIVA").1 }]) ∧
    (∀ (cfg : SL.Config) (now : ℝ) (t : SL.TrackedPerson),
      ¬ t.loiteringTime > cfg.loiteringTimeThreshold →
        (SL.loiteringBehaviors cfg now t).1 = []) ∧
    (∀ (now : ℝ) (c : Point) (t : SL.TrackedPerson),
      (SL.updateTrackedPerson now c t).loiteringTime = now - t.firstSeen) ∧
    (∀ x y : ℝ, x ≤ y → SL.loiterConfidence x ≤ SL.loiterConfidence y) ∧
    (∀ x : ℝ, SL.loiterConfidence x ≤ 1) ∧
    (30 : ℝ) > SL.defaultConfig.loiteringTimeThreshold ∧
    (SL.loiteringBehaviors SL.defaultConfig 25 SL.track25).1 =
      [{ type := "PERMANENCIA_EXCESSIVA", confidence := 5 / 6, personID := 1,
         location := (0, 0), shouldLog := true }] ∧
    |SL.loiterConfidence 25 - 0.833| < 1 / 1000 := by
  have hconf25 : SL.loiterConfidence 25 = 5 / 6 := by
    unfold SL.loiterConfidence
    rw [min_eq_left (by norm_num : (25 : ℝ) / 30 ≤ 1)]
    norm_num
  refine ⟨?_, ?_, ?_, ?_, ?_, ?_, ?_, ?_⟩
  · intro cfg now t h
    unfold SL.loiteringBehaviors
    rw [if_pos h]
  · intro cfg now t h
    unfold SL.loiteringBehaviors
    rw [if_neg h]
  · intro now c t; rfl
  · intro x y hxy
    exact min_le_min (by linarith) le_rfl
  · intro x; exact min_le_right _ _
  · norm_num [SL.defaultConfig]
  · unfold SL.loiteringBehaviors
    rw [if_pos (by norm_num [SL.track25, SL.defaultConfig] :
      SL.track25.loiteringTime > SL.defaultConfig.loiteringTimeThreshold)]
    simp [SL.shouldLogBehavior, SL.track25, SL.lastPosition, hconf25]
  · rw [hconf25, abs_sub_lt_iff]
    norm_num

/-- Claim C4: for a track with a recorded position, a proximity behavior is
emitted for a valuable item exactly when the Euclidean distance from the
track's latest centroid to the item's centroid is below the proximity
threshold, with confidence `1 − distance/threshold`; the confidence of every
emitted behavior lies in (0, 1] ⊆ [0, 1], is strictly decreasing in the
distance, vanishes exactly at the threshold boundary, and equals 0.375 at
distance 50 px with the default 80 px threshold. -/
theorem C4_proximity_analyzer :
    (∀ (cfg : SL.Config) (now : ℝ) (vs : List SL.DetectionResult)
        (t : SL.TrackedPerson) (lastPos : Point),
      t.positions.getLast? = some lastPos →
      ∀ v ∈ vs, distPx lastPos (rectCenter v.box) < cfg.proximityThreshold →
        ∃ b ∈ (SL.proximityBehaviors cfg now vs t).1,
          b.type = "PROXIMIDADE_SUSPEITA" ∧
          b.confidence = SL.proxConfidence cfg.proximityThreshold
            (distPx lastPos (rectCenter v.box)) ∧
          b.personID = t.id ∧ b.location = lastPos) ∧
    (∀ (cfg : SL.Config) (now : ℝ) (vs : List SL.DetectionResult)
        (t : SL.TrackedPerson) (lastPos : Point),
      t.positions.getLast? = some lastPos →
      ∀ b ∈ (SL.proximityBehaviors cfg now vs t).1,
        ∃ v ∈ vs, distPx lastPos (rectCenter v.box) < cfg.proximityThreshold ∧
          b.confidence = SL.proxConfidence cfg.proximityThreshold
            (distPx lastPos (rectCenter v.box))) ∧
    (∀ th d : ℝ, 0 < th → 0 ≤ d → d < th →
      0 < SL.proxConfidence th d ∧ SL.proxConfidence th d ≤ 1) ∧
    (∀ th d e : ℝ, 0 < th → d < e → SL.proxConfidence th e < SL.proxConfidence th d) ∧
    (∀ th d : ℝ, 0 < th → (SL.proxConfidence th d = 0 ↔ d = th)) ∧
    SL.proxConfidence 80 50 = 0.375 ∧
    (SL.proximityBehaviors SL.defaultConfig 0 [SL.phoneDet] SL.track0).1 =
      [{ type := "PROXIMIDADE_SUSPEITA", confidence := 0.375, personID := 1,
         location := (0, 0), shouldLog := true }] := by
  have hcenter : rectCenter SL.phoneDet.box = (30, 40) := by
    norm_num [rectCenter, Rectangle.dx, Rectangle.dy, SL.phoneDet, Int.tdiv]
  have hdist : distPx (0, 0) (30, 40) = 50 :=
    distPx_eq_of_sq (by norm_num) (by norm_num [sqDist])
  refine ⟨?_, ?_, ?_, ?_, ?_, ?_, ?_⟩
  · intro cfg now vs t lastPos hl v hv hd
    exact SL.proximityBehaviors_complete cfg now vs t lastPos hl v hv hd
  · intro cfg now vs t lastPos hl b hb
    obtain ⟨v, hv, hd, _, hc, _, _⟩ := SL.proximityBehaviors_sound cfg now vs t lastPos hl b hb
    exact ⟨v, hv, hd, hc⟩
  · intro th d hth hd hdth
    unfold SL.proxConfidence
    constructor
    · have : d / th < 1 := (div_lt_one hth).mpr hdth
      linarith
    · have : 0 ≤ d / th := div_nonneg hd (le_of_lt hth)
      linarith
  · intro th d e hth hde
    unfold SL.proxConfidence
    have : d / th < e / th := (div_lt_div_iff_of_pos_right hth).mpr hde
    linarith
  · intro th d hth
    unfold SL.proxConfidence
    constructor
    · intro h
      have : d / th = 1 := by linarith
      calc d = d / th * th := by field_simp
        _ = th := by rw [this]; ring
    · intro h
      subst h
      rw [div_self (ne_of_gt hth)]
      ring
  · unfold SL.proxConfidence; norm_num
  · unfold SL.proximityBehaviors
    have hl : SL.track0.positions.getLast? = some (0, 0) := rfl
    rw [hl]
    show (SL.proximityStep SL.defaultConfig 0 SL.track0 (0, 0) ([], SL.track0) SL.phoneDet).1 = _
    unfold SL.proximityStep
    rw [hcenter]
    dsimp only
    rw [hdist]
    rw [if_pos (by norm_num [SL.defaultConfig] : (50 : ℝ) < SL.defaultConfig.proximityThreshold)]
    simp [SL.shouldLogBehavior, SL.track0, SL.proxConfidence, SL.defaultConfig]
    norm_num


namespace SL

/-! Helper lemmas about the throttle (`shouldLogBehavior` and `runLog`). -/

lemma shouldLogBehavior_of_none (now : ℝ) (t : TrackedPerson) (bt : String)
    (hm : t.lastLogTimes bt = none) :
    shouldLogBehavior now t bt = (true, { t with lastLogTimes :=
      (fun k => if k = bt then some now else t.lastLogTimes k) }) := by
  unfold shouldLogBehavior
  rw [hm]

lemma shouldLogBehavior_of_recent (now : ℝ) (t : TrackedPerson) (bt : String)
    (v : ℝ) (hm : t.lastLogTimes bt = some v) (hlt : now - v < 1) :
    shouldLogBehavior now t bt = (false, t) := by
  unfold shouldLogBehavior
  rw [hm]
  exact if_pos hlt

lemma shouldLogBehavior_of_old (now : ℝ) (t : TrackedPerson) (bt : String)
    (v : ℝ) (hm : t.lastLogTimes bt = some v) (hlt : ¬ now - v < 1) :
    shouldLogBehavior now t bt = (true, { t with lastLogTimes :=
      (fun k => if k = bt then some now else t.lastLogTimes k) }) := by
  unfold shouldLogBehavior
  rw [hm]
  exact if_neg hlt

/-- A log-eligible evaluation writes the throttle timestamp. -/
lemma shouldLogBehavior_true_update (now : ℝ) (t : TrackedPerson) (bt : String)
    (h : (shouldLogBehavior now t bt).1 = true) :
    (shouldLogBehavior now t bt).2.lastLogTimes bt = some now := by
  cases hm : t.lastLogTimes bt with
  | none => rw [shouldLogBehavior_of_none now t bt hm]; simp
  | some v =>
      by_cases hlt : now - v < 1
      · rw [shouldLogBehavior_of_recent now t bt v hm hlt] at h
        exact absurd h (by simp)
      · rw [shouldLogBehavior_of_old now t bt v hm hlt]; simp

/-- A suppressed evaluation leaves the track — and in particular the
throttle timestamp — unchanged. -/
lemma shouldLogBehavior_false_snd (now : ℝ) (t : TrackedPerson) (bt : String)
    (h : (shouldLogBehavior now t bt).1 = false) :
    (shouldLogBehavior now t bt).2 = t := by
  cases hm : t.lastLogTimes bt with
  | none =>
      rw [shouldLogBehavior_of_none now t bt hm] at h
      exact absurd h (by simp)
  | some v =>
      by_cases hlt : now - v < 1
      · rw [shouldLogBehavior_of_recent now t bt v hm hlt]
      · rw [shouldLogBehavior_of_old now t bt v hm hlt] at h
        exact absurd h (by simp)

/-- An evaluation for one behavior type never touches another type's
throttle timestamp. -/
lemma shouldLogBehavior_other (now : ℝ) (t : TrackedPerson) (bt bt2 : String)
    (h : bt ≠ bt2) :
    (shouldLogBehavior now t bt2).2.lastLogTimes bt = t.lastLogTimes bt := by
  cases hm : t.lastLogTimes bt2 with
  | none => rw [shouldLogBehavior_of_none now t bt2 hm]; simp [h]
  | some v =>
      by_cases hlt : now - v < 1
      · rw [shouldLogBehavior_of_recent now t bt2 v hm hlt]
      · rw [shouldLogBehavior_of_old now t bt2 v hm hlt]; simp [h]

/-- Once the throttle timestamp reads `v`, every later log-eligible
evaluation in a run happens at `v + 1` or later. -/
lemma runLog_true_lower (bt : String) :
    ∀ (times : List ℝ) (t : TrackedPerson) (v : ℝ),
      t.lastLogTimes bt = some v →
      ∀ p ∈ runLog bt t times, p.2 = true → v + 1 ≤ p.1 := by
  intro times
  induction times with
  | nil => intro t v hv p hp; exact absurd hp (List.not_mem_nil p)
  | cons time rest ih =>
      intro t v hv p hp hflag
      have hrun : runLog bt t (time :: rest) =
          (time, (shouldLogBehavior time t bt).1) ::
            runLog bt (shouldLogBehavior time t bt).2 rest := rfl
      rw [hrun] at hp
      by_cases hlt : time - v < 1
      · rw [shouldLogBehavior_of_recent time t bt v hv hlt] at hp
        rcases List.mem_cons.mp hp with h | h
        · subst h; exact absurd hflag (by simp)
        · exact ih t v hv p h hflag
      · have hr1 : (shouldLogBehavior time t bt).1 = true := by
          rw [shouldLogBehavior_of_old time t bt v hv hlt]
        have hr2 : (shouldLogBehavior time t bt).2.lastLogTimes bt = some time :=
          shouldLogBehavior_true_update time t bt hr1
        rcases List.mem_cons.mp hp with h | h
        · rw [h]
          have := not_lt.mp hlt
          dsimp only
          linarith
        · have hge := ih (shouldLogBehavior time t bt).2 time hr2 p h hflag
          have hv1 : v + 1 ≤ time := by linarith [not_lt.mp hlt]
          linarith

/-- The log-eligible evaluations of any run are pairwise at least one
second apart. -/
lemma runLog_pairwise (bt : String) :
    ∀ (times : List ℝ) (t : TrackedPerson),
      ((runLog bt t times).filter (fun p => p.2)).Pairwise
        (fun a b => a.1 + 1 ≤ b.1) := by
  intro times
  induction times with
  | nil => intro t; simp [runLog]
  | cons time rest ih =>
      intro t
      have hrun : runLog bt t (time :: rest) =
          (time, (shouldLogBehavior time t bt).1) ::
            runLog bt (shouldLogBehavior time t bt).2 rest := rfl
      rw [hrun, List.filter_cons]
      cases hflag : (shouldLogBehavior time t bt).1 with
      | false =>
          simp only [hflag]
          simpa using ih _
      | true =>
          simp only [hflag]
          have hgoal : List.Pairwise (fun a b => a.1 + 1 ≤ b.1)
              (((time, true) : ℝ × Bool) ::
                (runLog bt (shouldLogBehavior time t bt).2 rest).filter (fun p => p.2)) := by
            rw [List.pairwise_cons]
            constructor
            · intro b hb
              have hmem := (List.mem_filter.mp hb).1
              have hb2 : b.2 = true := by simpa using (List.mem_filter.mp hb).2
              have hupd := shouldLogBehavior_true_update time t bt hflag
              exact runLog_true_lower bt rest (shouldLogBehavior time t bt).2 time hupd b hmem hb2
            · exact ih _
          simpa using hgoal

end SL

/-- Claim C5: for a fixed track and behavior-type pair, no two log-eligible
emissions occur within one second of each other over a whole run of throttle
evaluations (the log-eligible entries of any evaluation run are pairwise at
least one second apart, for arbitrary evaluation instants); evaluations for
one behavior type never disturb another type's throttle timestamp, and the
concrete run at times 0, 0.5, 2 emits eligible, suppressed, eligible. -/
theorem C5_throttle_one_second :
    (∀ (bt : String) (times : List ℝ) (t : SL.TrackedPerson),
      ((SL.runLog bt t times).filter (fun p => p.2)).Pairwise
        (fun a b => a.1 + 1 ≤ b.1)) ∧
    (∀ (now : ℝ) (t : SL.TrackedPerson) (bt bt2 : String), bt ≠ bt2 →
      (SL.shouldLogBehavior now t bt2).2.lastLogTimes bt = t.lastLogTimes bt) ∧
    SL.runLog "X" SL.track0 [0, 1 / 2, 2] = [(0, true), (1 / 2, false), (2, true)] := by
  refine ⟨fun bt times t => SL.runLog_pairwise bt times t,
    fun now t bt bt2 h => SL.shouldLogBehavior_other now t bt bt2 h, ?_⟩
  have e1 : SL.shouldLogBehavior 0 SL.track0 "X" = (true, SL.track0X) :=
    SL.shouldLogBehavior_of_none 0 SL.track0 "X" rfl
  have hX : SL.track0X.lastLogTimes "X" = some 0 := by simp [SL.track0X]
  have e2 : SL.shouldLogBehavior (1 / 2) SL.track0X "X" = (false, SL.track0X) :=
    SL.shouldLogBehavior_of_recent (1 / 2) SL.track0X "X" 0 hX (by norm_num)
  have e3 : (SL.shouldLogBehavior 2 SL.track0X "X").1 = true := by
    rw [SL.shouldLogBehavior_of_old 2 SL.track0X "X" 0 hX (by norm_num)]
  have h1 : SL.runLog "X" SL.track0 [0, 1 / 2, 2] =
      (0, (SL.shouldLogBehavior 0 SL.track0 "X").1) ::
        SL.runLog "X" (SL.shouldLogBehavior 0 SL.track0 "X").2 [1 / 2, 2] := rfl
  rw [h1, e1]
  have h2 : SL.runLog "X" SL.track0X [1 / 2, 2] =
      (1 / 2, (SL.shouldLogBehavior (1 / 2) SL.track0X "X").1) ::
        SL.runLog "X" (SL.shouldLogBehavior (1 / 2) SL.track0X "X").2 [2] := rfl
  show (0, true) :: SL.runLog "X" SL.track0X [1 / 2, 2] = _
  rw [h2, e2]
  have h3 : SL.runLog "X" SL.track0X [2] =
      [(2, (SL.shouldLogBehavior 2 SL.track0X "X").1)] := rfl
  show (0, true) :: (1 / 2, false) :: SL.runLog "X" SL.track0X [2] = _
  rw [h3, e3]

/-- Claim C6, as stated, is false on the code: on an evaluation whose event
is not log-eligible, the throttle timestamp is not updated.  Concretely, a
track whose `"X"` timestamp reads 0, evaluated at time 0.5, yields a
suppressed event and the timestamp still reads 0, not 0.5. -/
theorem C6_counterexample :
    (SL.shouldLogBehavior (1 / 2) SL.track0X "X").1 = false ∧
    (SL.shouldLogBehavior (1 / 2) SL.track0X "X").2.lastLogTimes "X" = some 0 ∧
    some (0 : ℝ) ≠ some (1 / 2 : ℝ) := by
  have hX : SL.track0X.lastLogTimes "X" = some 0 := by simp [SL.track0X]
  have e := SL.shouldLogBehavior_of_recent (1 / 2) SL.track0X "X" 0 hX (by norm_num)
  exact ⟨by rw [e], by rw [e]; exact hX, by norm_num⟩

/-- Claim C6, amended: on every evaluation where a behavior condition is
true the behavior event is returned to the caller carrying the
log-eligibility flag (also when the flag is false), but the throttle
timestamp is written only on log-eligible evaluations; a suppressed
evaluation leaves the track state unchanged. -/
theorem C6_throttle_decoupled :
    (∀ (cfg : SL.Config) (now : ℝ) (t : SL.TrackedPerson),
      t.loiteringTime > cfg.loiteringTimeThreshold →
        ∃ b ∈ (SL.loiteringBehaviors cfg now t).1,
          b.shouldLog = (SL.shouldLogBehavior now t "PERMANENCIA_EXCESSIVA").1) ∧
    (∀ (now : ℝ) (t : SL.TrackedPerson) (bt : String),
      (SL.shouldLogBehavior now t bt).1 = true →
        (SL.shouldLogBehavior now t bt).2.lastLogTimes bt = some now) ∧
    (∀ (now : ℝ) (t : SL.TrackedPerson) (bt : String),
      (SL.shouldLogBehavior now t bt).1 = false →
        (SL.shouldLogBehavior now t bt).2 = t) := by
  refine ⟨?_, SL.shouldLogBehavior_true_update, SL.shouldLogBehavior_false_snd⟩
  intro cfg now t h
  unfold SL.loiteringBehaviors
  rw [if_pos h]
  exact ⟨_, List.mem_singleton.mpr rfl, rfl⟩

namespace SL

/-! Helper lemmas for the movement-pattern analyzer. -/

/-- The movement score is never negative. -/
lemma analyzeSuspiciousMovement_nonneg (ps : List Point) :
    0 ≤ analyzeSuspiciousMovement ps := by
  unfold analyzeSuspiciousMovement
  dsimp only
  split_ifs <;> positivity

/-- The movement score is clamped to at most 1. -/
lemma analyzeSuspiciousMovement_le_one (ps : List Point) :
    analyzeSuspiciousMovement ps ≤ 1 := by
  unfold analyzeSuspiciousMovement
  dsimp only
  split_ifs <;> linarith

end SL

/-- Claim C7: the movement-pattern analyzer fires exactly when the history
exceeds 15 positions, the 8-second cooldown since the last movement alert
has elapsed, and the score of the recent window exceeds 0.9; on firing it
stamps the cooldown timestamp with the current time; every emitted
confidence is the (clamped) movement score, which lies in [0, 1] for every
input; and a short history (at most 15 positions) produces no movement
behavior at all. -/
theorem C7_movement_analyzer :
    (∀ (now : ℝ) (t : SL.TrackedPerson),
      (SL.movementBehaviors now t).1 ≠ [] ↔
        (15 < t.positions.length ∧ now - t.lastSuspiciousMovement > 8 ∧
          SL.analyzeSuspiciousMovement
            (t.positions.drop (t.positions.length - 12)) > 0.9)) ∧
    (∀ (now : ℝ) (t : SL.TrackedPerson),
      15 < t.positions.length → now - t.lastSuspiciousMovement > 8 →
      SL.analyzeSuspiciousMovement (t.positions.drop (t.positions.length - 12)) > 0.9 →
        (SL.movementBehaviors now t).2.lastSuspiciousMovement = now) ∧
    (∀ (now : ℝ) (t : SL.TrackedPerson) (b : SL.SuspiciousBehavior),
      b ∈ (SL.movementBehaviors now t).1 →
        b.type = "MOVIMENTO_SUSPEITO" ∧
        b.confidence = SL.analyzeSuspiciousMovement
          (t.positions.drop (t.positions.length - 12)) ∧
        0 ≤ b.confidence ∧ b.confidence ≤ 1) ∧
    (∀ ps : List Point, 0 ≤ SL.analyzeSuspiciousMovement ps ∧
      SL.analyzeSuspiciousMovement ps ≤ 1) ∧
    (∀ (now : ℝ) (t : SL.TrackedPerson), t.positions.length ≤ 15 →
      SL.movementBehaviors now t = ([], t)) := by
  have hfire : ∀ (now : ℝ) (t : SL.TrackedPerson),
      15 < t.positions.length → now - t.lastSuspiciousMovement > 8 →
      SL.analyzeSuspiciousMovement (t.positions.drop (t.positions.length - 12)) > 0.9 →
      SL.movementBehaviors now t =
        ([{ type := "MOVIMENTO_SUSPEITO"
            confidence := SL.analyzeSuspiciousMovement
              (t.positions.drop (t.positions.length - 12))
            personID := t.id
            location := SL.lastPosition t
            shouldLog := (SL.shouldLogBehavior now t "MOVIMENTO_SUSPEITO").1 }],
          { (SL.shouldLogBehavior now t "MOVIMENTO_SUSPEITO").2 with
              lastSuspiciousMovement := now }) := by
    intro now t h1 h2 h3
    unfold SL.movementBehaviors
    rw [if_pos h1, if_pos h2, if_pos h3]
  have hskip : ∀ (now : ℝ) (t : SL.TrackedPerson),
      ¬ (15 < t.positions.length ∧ now - t.lastSuspiciousMovement > 8 ∧
        SL.analyzeSuspiciousMovement (t.positions.drop (t.positions.length - 12)) > 0.9) →
      SL.movementBehaviors now t = ([], t) := by
    intro now t h
    unfold SL.movementBehaviors
    by_cases h1 : 15 < t.positions.length
    · rw [if_pos h1]
      by_cases h2 : now - t.lastSuspiciousMovement > 8
      · rw [if_pos h2]
        by_cases h3 : SL.analyzeSuspiciousMovement
            (t.positions.drop (t.positions.length - 12)) > 0.9
        · exact absurd ⟨h1, h2, h3⟩ h
        · rw [if_neg h3]
      · rw [if_neg h2]
    · rw [if_neg h1]
  refine ⟨?_, ?_, ?_, ?_, ?_⟩
  · intro now t
    constructor
    · intro hne
      by_contra h
      rw [hskip now t h] at hne
      exact hne rfl
    · rintro ⟨h1, h2, h3⟩
      rw [hfire now t h1 h2 h3]
      simp
  · intro now t h1 h2 h3
    rw [hfire now t h1 h2 h3]
  · intro now t b hb
    by_cases h : 15 < t.positions.length ∧ now - t.lastSuspiciousMovement > 8 ∧
        SL.analyzeSuspiciousMovement (t.positions.drop (t.positions.length - 12)) > 0.9
    · obtain ⟨h1, h2, h3⟩ := h
      rw [hfire now t h1 h2 h3] at hb
      rcases List.mem_singleton.mp hb with rfl
      exact ⟨rfl, rfl, SL.analyzeSuspiciousMovement_nonneg _,
        SL.analyzeSuspiciousMovement_le_one _⟩
    · rw [hskip now t h] at hb
      exact absurd hb (List.not_mem_nil b)
  · intro ps
    exact ⟨SL.analyzeSuspiciousMovement_nonneg ps, SL.analyzeSuspiciousMovement_le_one ps⟩
  · intro now t h
    exact hskip now t (by push_neg; intro h1; exact absurd h1 (not_lt.mpr h))

namespace SLPose

/-! Helper lemmas for the pose-variant analyzer blocks. -/

lemma loiteringBehaviors_types (cfg : Config) (t : TrackedPerson)
    (b : SuspiciousBehavior) (hb : b ∈ loiteringBehaviors cfg t) :
    b.type = "LOITERING" := by
  unfold loiteringBehaviors at hb
  by_cases h : t.loiteringTime > cfg.loiteringTimeThreshold
  · rw [if_pos h] at hb
    rcases List.mem_singleton.mp hb with rfl
    rfl
  · rw [if_neg h] at hb
    exact absurd hb (List.not_mem_nil b)

lemma proxFold_types (cfg : Config) (t : TrackedPerson) (lastPos : Point) :
    ∀ (vs : List SL.DetectionResult) (acc : List SuspiciousBehavior)
      (b : SuspiciousBehavior), b ∈ vs.foldl (proximityStep cfg t lastPos) acc →
      b ∈ acc ∨ b.type = "VALUABLE_PROXIMITY" := by
  intro vs
  induction vs with
  | nil => intro acc b hb; exact Or.inl hb
  | cons w ws ih =>
      intro acc b hb
      rcases ih (proximityStep cfg t lastPos acc w) b hb with h | h
      · unfold proximityStep at h
        by_cases hd : distPx lastPos (rectCenter w.box) < cfg.proximityThreshold
        · rw [if_pos hd] at h
          rcases List.mem_append.mp h with h1 | h1
          · exact Or.inl h1
          · rcases List.mem_singleton.mp h1 with rfl
            exact Or.inr rfl
        · rw [if_neg hd] at h
          exact Or.inl h
      · exact Or.inr h

lemma proximityBehaviors_types (cfg : Config) (vs : List SL.DetectionResult)
    (t : TrackedPerson) (b : SuspiciousBehavior)
    (hb : b ∈ proximityBehaviors cfg vs t) : b.type = "VALUABLE_PROXIMITY" := by
  unfold proximityBehaviors at hb
  cases hl : t.positions.getLast? with
  | none => rw [hl] at hb; exact absurd hb (List.not_mem_nil b)
  | some lastPos =>
      rw [hl] at hb
      rcases proxFold_types cfg t lastPos vs [] b hb with h | h
      · exact absurd h (List.not_mem_nil b)
      · exact h

lemma movementBehaviors_cases (now : ℝ) (t : TrackedPerson) :
    movementBehaviors now t = ([], t) ∨
    ∃ b, (movementBehaviors now t).1 = [b] ∧ b.type = "SUSPICIOUS_MOVEMENT" ∧
      (movementBehaviors now t).2 = { t with lastSuspiciousMovement := now } := by
  unfold movementBehaviors
  by_cases h1 : 15 < t.positions.length
  · rw [if_pos h1]
    by_cases h2 : now - t.lastSuspiciousMovement > 8
    · rw [if_pos h2]
      by_cases h3 : SL.analyzeSuspiciousMovement
          (t.positions.drop (t.positions.length - 12)) > 0.9
      · rw [if_pos h3]
        exact Or.inr ⟨_, rfl, rfl, rfl⟩
      · rw [if_neg h3]; exact Or.inl rfl
    · rw [if_neg h2]; exact Or.inl rfl
  · rw [if_neg h1]; exact Or.inl rfl

lemma movementBehaviors_snd_poses (now : ℝ) (t : TrackedPerson) :
    (movementBehaviors now t).2.poses = t.poses := by
  rcases movementBehaviors_cases now t with h | ⟨b, h1, h2, h3⟩
  · rw [h]
  · rw [h3]

lemma movementBehaviors_snd_loiter (now : ℝ) (t : TrackedPerson) :
    (movementBehaviors now t).2.loiteringTime = t.loiteringTime := by
  rcases movementBehaviors_cases now t with h | ⟨b, h1, h2, h3⟩
  · rw [h]
  · rw [h3]

lemma movementBehaviors_types (now : ℝ) (t : TrackedPerson)
    (b : SuspiciousBehavior) (hb : b ∈ (movementBehaviors now t).1) :
    b.type = "SUSPICIOUS_MOVEMENT" := by
  rcases movementBehaviors_cases now t with h | ⟨b2, h1, h2, h3⟩
  · rw [h] at hb; exact absurd hb (List.not_mem_nil b)
  · rw [h1] at hb
    rcases List.mem_singleton.mp hb with rfl
    exact h2

lemma poseBehaviors_of_no_poses (cfg : Config) (pe : Bool) (t : TrackedPerson)
    (h : t.poses = []) : poseBehaviors cfg pe t = [] := by
  unfold poseBehaviors
  rw [if_neg]
  simp [h]

end SLPose

/-- Claim C9: for a pose with all 17 keypoints the posture score is the sum
of a fixed 0.4 crouch contribution (shoulders vertically within 50 px of the
hips, all four involved keypoints above the 0.3 confidence gate) and a fixed
0.3 concealment contribution (both wrists horizontally within 30 px of the
shoulder-center line, both wrist keypoints above the gate), so it always
lies in {0, 0.3, 0.4, 0.7};  a pose record with fewer than 17 keypoints
scores 0; the posture behavior is emitted exactly when the score exceeds
the configured threshold; and a track with no pose data yields no posture
behavior while the loitering analyzer still runs on it. -/
theorem C9_posture_analyzer :
    (∀ pose : SLPose.PersonPose, ¬ pose.keypoints.length < 17 →
      SLPose.analyzeSuspiciousPose pose =
        (if (pose.keypoints.getD 5 SLPose.zeroKeypoint).confidence > 0.3 ∧
            (pose.keypoints.getD 6 SLPose.zeroKeypoint).confidence > 0.3 ∧
            (pose.keypoints.getD 11 SLPose.zeroKeypoint).confidence > 0.3 ∧
            (pose.keypoints.getD 12 SLPose.zeroKeypoint).confidence > 0.3 ∧
            |((pose.keypoints.getD 5 SLPose.zeroKeypoint).y +
                (pose.keypoints.getD 6 SLPose.zeroKeypoint).y) / 2 -
              ((pose.keypoints.getD 11 SLPose.zeroKeypoint).y +
                (pose.keypoints.getD 12 SLPose.zeroKeypoint).y) / 2| < 50
          then (0.4 : ℝ) else 0) +
        (if (pose.keypoints.getD 9 SLPose.zeroKeypoint).confidence > 0.3 ∧
            (pose.keypoints.getD 10 SLPose.zeroKeypoint).confidence > 0.3 ∧
            |(pose.keypoints.getD 9 SLPose.zeroKeypoint).x -
              ((pose.keypoints.getD 5 SLPose.zeroKeypoint).x +
                (pose.keypoints.getD 6 SLPose.zeroKeypoint).x) / 2| < 30 ∧
            |(pose.keypoints.getD 10 SLPose.zeroKeypoint).x -
              ((pose.keypoints.getD 5 SLPose.zeroKeypoint).x +
                (pose.keypoints.getD 6 SLPose.zeroKeypoint).x) / 2| < 30
          then (0.3 : ℝ) else 0)) ∧
    (∀ pose : SLPose.PersonPose, pose.keypoints.length < 17 →
      SLPose.analyzeSuspiciousPose pose = 0) ∧
    (∀ pose : SLPose.PersonPose,
      SLPose.analyzeSuspiciousPose pose = 0 ∨ SLPose.analyzeSuspiciousPose pose = 0.3 ∨
      SLPose.analyzeSuspiciousPose pose = 0.4 ∨ SLPose.analyzeSuspiciousPose pose = 0.7) ∧
    (∀ (cfg : SLPose.Config) (t : SLPose.TrackedPerson), t.poses ≠ [] →
      ((∃ b ∈ SLPose.poseBehaviors cfg true t, b.type = "SUSPICIOUS_POSE" ∧
          b.confidence = SLPose.analyzeSuspiciousPose
            ((t.poses.getLast?).getD { keypoints := [] })) ↔
        SLPose.analyzeSuspiciousPose ((t.poses.getLast?).getD { keypoints := [] }) >
          cfg.suspiciousPoseThreshold)) ∧
    (∀ (cfg : SLPose.Config) (now : ℝ) (pe : Bool) (vs : List SL.DetectionResult)
        (t : SLPose.TrackedPerson), t.poses = [] →
      (∀ b ∈ (SLPose.trackBehaviors cfg now pe vs t).1, b.type ≠ "SUSPICIOUS_POSE") ∧
      (t.loiteringTime > cfg.loiteringTimeThreshold →
        ∃ b ∈ (SLPose.trackBehaviors cfg now pe vs t).1, b.type = "LOITERING")) := by
  refine ⟨?_, ?_, ?_, ?_, ?_⟩
  · intro pose h
    unfold SLPose.analyzeSuspiciousPose
    rw [if_neg h]
    dsimp only
    split_ifs <;> first | rfl | (exfalso; tauto)
  · intro pose h
    unfold SLPose.analyzeSuspiciousPose
    rw [if_pos h]
  · intro pose
    unfold SLPose.analyzeSuspiciousPose
    dsimp only
    split_ifs <;> norm_num
  · intro cfg t hp
    unfold SLPose.poseBehaviors
    rw [if_pos (by simp [hp])]
    dsimp only
    by_cases hs : SLPose.analyzeSuspiciousPose ((t.poses.getLast?).getD { keypoints := [] }) >
        cfg.suspiciousPoseThreshold
    · rw [if_pos hs]
      constructor
      · intro _; exact hs
      · intro _; exact ⟨_, List.mem_singleton.mpr rfl, rfl, rfl⟩
    · rw [if_neg hs]
      constructor
      · rintro ⟨b, hb, _⟩; exact absurd hb (List.not_mem_nil b)
      · intro h; exact absurd h hs
  · intro cfg now pe vs t hp
    have hpose : SLPose.poseBehaviors cfg pe (SLPose.movementBehaviors now t).2 = [] :=
      SLPose.poseBehaviors_of_no_poses cfg pe _
        (by rw [SLPose.movementBehaviors_snd_poses]; exact hp)
    have htb : (SLPose.trackBehaviors cfg now pe vs t).1 =
        SLPose.loiteringBehaviors cfg t ++ SLPose.proximityBehaviors cfg vs t ++
          (SLPose.movementBehaviors now t).1 ++
          SLPose.poseBehaviors cfg pe (SLPose.movementBehaviors now t).2 := rfl
    constructor
    · intro b hb
      rw [htb, hpose, List.append_nil] at hb
      rcases List.mem_append.mp hb with hb1 | hb3
      · rcases List.mem_append.mp hb1 with hb4 | hb5
        · rw [SLPose.loiteringBehaviors_types cfg t b hb4]
          intro h
          exact absurd h (by intro h2; simp at h2)
        · rw [SLPose.proximityBehaviors_types cfg vs t b hb5]
          intro h
          exact absurd h (by intro h2; simp at h2)
      · rw [SLPose.movementBehaviors_types now t b hb3]
        intro h
        exact absurd h (by intro h2; simp at h2)
    · intro hl
      refine ⟨{ type := "LOITERING"
                confidence := min (t.loiteringTime / 30) 1
                personID := t.id
                location := SLPose.lastPosition t }, ?_, rfl⟩
      rw [htb]
      apply List.mem_append_left
      apply List.mem_append_left
      apply List.mem_append_left
      unfold SLPose.loiteringBehaviors
      rw [if_pos hl]
      exact List.mem_singleton.mpr rfl

namespace SL

/-! Helper lemmas for the associator (`updateTracking`). -/

/-- The matched branch of the per-detection update. -/
lemma updateOneDetection_matched (cfg : Config) (now : ℝ) (st : DetectorState)
    (person : DetectionResult) (tid : ℤ)
    (h : findNearestTrackedPerson cfg st (rectCenter person.box) = some tid) :
    updateOneDetection cfg now st person =
      { trackedPeople := st.trackedPeople.map (fun t =>
          if t.id = tid then updateTrackedPerson now (rectCenter person.box) t else t)
        nextPersonID := st.nextPersonID } := by
  unfold updateOneDetection
  dsimp only
  rw [h]

/-- The new-track branch of the per-detection update. -/
lemma updateOneDetection_new (cfg : Config) (now : ℝ) (st : DetectorState)
    (person : DetectionResult)
    (h : findNearestTrackedPerson cfg st (rectCenter person.box) = none) :
    updateOneDetection cfg now st person =
      { trackedPeople := st.trackedPeople ++
          [updateTrackedPerson now (rectCenter person.box)
            { id := st.nextPersonID
              lastSeen := now
              positions := [rectCenter person.box]
              loiteringTime := 0
              firstSeen := now
              lastSuspiciousMovement := 0
              lastLogTimes := fun _ => none }]
        nextPersonID := st.nextPersonID + 1 } := by
  unfold updateOneDetection
  dsimp only
  rw [h]

lemma updateTrackedPerson_id (now : ℝ) (c : Point) (t : TrackedPerson) :
    (updateTrackedPerson now c t).id = t.id := rfl

lemma updateTrackedPerson_lastSeen (now : ℝ) (c : Point) (t : TrackedPerson) :
    (updateTrackedPerson now c t).lastSeen = now := rfl

lemma updateTrackedPerson_firstSeen (now : ℝ) (c : Point) (t : TrackedPerson) :
    (updateTrackedPerson now c t).firstSeen = t.firstSeen := rfl

/-- After the common update, the track's most recent centroid is the one
just appended, whether or not the history was truncated. -/
lemma updateTrackedPerson_getLast (now : ℝ) (c : Point) (t : TrackedPerson) :
    (updateTrackedPerson now c t).positions.getLast? = some c := by
  unfold updateTrackedPerson
  dsimp only
  by_cases h : (t.positions ++ [c]).length > 30
  · rw [if_pos h]
    cases hp : t.positions with
    | nil => rw [hp] at h; simp at h
    | cons p ps => simp [List.getLast?_concat]
  · rw [if_neg h]
    exact List.getLast?_concat _

/-- A brand-new track carries its creation centroid twice: once from the
literal and once from the unconditional append. -/
lemma updateTrackedPerson_newTrack (now : ℝ) (c : Point) (n : ℤ) :
    (updateTrackedPerson now c
      { id := n, lastSeen := now, positions := [c], loiteringTime := 0,
        firstSeen := now, lastSuspiciousMovement := 0,
        lastLogTimes := fun _ => none }).positions = [c, c] := by
  unfold updateTrackedPerson
  simp

lemma findNearest_nil (cfg : Config) (st : DetectorState) (c : Point)
    (h : st.trackedPeople = []) : findNearestTrackedPerson cfg st c = none := by
  unfold findNearestTrackedPerson
  rw [h]
  rfl

lemma findNearest_singleton (cfg : Config) (st : DetectorState) (c : Point)
    (t : TrackedPerson) (lp : Point) (h : st.trackedPeople = [t])
    (hl : t.positions.getLast? = some lp) :
    findNearestTrackedPerson cfg st c =
      if distPx c lp < cfg.proximityThreshold then some t.id else none := by
  unfold findNearestTrackedPerson
  rw [h]
  show (findNearestStep c (cfg.proximityThreshold, none) t).2 = _
  unfold findNearestStep
  rw [hl]
  dsimp only
  by_cases hd : distPx c lp < cfg.proximityThreshold
  · rw [if_pos hd, if_pos hd]
  · rw [if_neg hd, if_neg hd]

/-- The tail of the per-frame cycle is the cleanup sweep. -/
lemma detectShoplifting_snd (cfg : Config) (now : ℝ)
    (dets : List DetectionResult) (st : DetectorState) :
    (detectShoplifting cfg now dets st).2 =
      cleanupOldTracking cfg now
        (analyzeBehaviors cfg now (filterValuableObjects dets)
          (updateTracking cfg now (filterPeople dets) st)).2 := rfl

/-- Every track that survives the cleanup sweep has been seen within the
tracker timeout. -/
lemma cleanupOldTracking_bound (cfg : Config) (now : ℝ) (st : DetectorState) :
    ∀ t ∈ (cleanupOldTracking cfg now st).trackedPeople,
      now - t.lastSeen ≤ cfg.trackerTimeout := by
  intro t ht
  unfold cleanupOldTracking at ht
  have hmem := List.mem_filter.mp ht
  by_cases h : now - t.lastSeen > cfg.trackerTimeout
  · rw [if_pos h] at hmem
    exact absurd hmem.2 (by simp)
  · exact not_lt.mp h

end SL

namespace SL

/-! Scenario C machinery: feeding the same detection location repeatedly. -/

lemma filterPeople_personDet : filterPeople [personDet] = [personDet] := by
  simp [filterPeople, personDet]

lemma filterValuable_personDet : filterValuableObjects [personDet] = [] := by
  simp [filterValuableObjects, personDet, getValuableItems]

lemma rectCenter_personDet : rectCenter personDet.box = (0, 0) := by
  norm_num [rectCenter, Rectangle.dx, Rectangle.dy, personDet, Int.tdiv]

/-- After updating with the origin detection, a store holding exactly one
just-refreshed track at the origin survives analysis and cleanup intact. -/
lemma scenarioC_tail (now : ℝ) (st2 : DetectorState) (u : TrackedPerson)
    (hu : st2.trackedPeople = [u]) (hul : u.positions.getLast? = some (0, 0))
    (hus : u.lastSeen = now) :
    ∃ t, ((cleanupOldTracking defaultConfig now
        (analyzeBehaviors defaultConfig now [] st2).2).trackedPeople = [t] ∧
      t.positions.getLast? = some (0, 0)) := by
  have htr := analyzeBehaviors_tracks defaultConfig now [] st2
  rw [hu] at htr
  refine ⟨(trackBehaviors defaultConfig now [] u).2, ?_, ?_⟩
  · show ((analyzeBehaviors defaultConfig now [] st2).2.trackedPeople.filter _) = _
    rw [htr]
    have hls : (trackBehaviors defaultConfig now [] u).2.lastSeen = now := by
      rw [trackBehaviors_snd_lastSeen, hus]
    have hpred : ¬ now - (trackBehaviors defaultConfig now [] u).2.lastSeen >
        defaultConfig.trackerTimeout := by
      rw [hls]
      norm_num [defaultConfig]
    simp [List.filter, if_neg hpred]
  · rw [trackBehaviors_snd_positions]
    exact hul

/-- One full cycle of the repeated-origin-detection scenario: from an empty
store or a store holding one track last seen at the origin, the cycle ends
with exactly one track whose last position is the origin. -/
lemma scenarioC_step (st : DetectorState) (now : ℝ)
    (h : st.trackedPeople = [] ∨
      ∃ t, st.trackedPeople = [t] ∧ t.positions.getLast? = some (0, 0)) :
    ∃ t, (((detectShoplifting defaultConfig now [personDet] st).2).trackedPeople = [t] ∧
      t.positions.getLast? = some (0, 0)) := by
  rw [detectShoplifting_snd, filterPeople_personDet, filterValuable_personDet]
  have hupd : updateTracking defaultConfig now [personDet] st =
      updateOneDetection defaultConfig now st personDet := rfl
  rw [hupd]
  rcases h with hempty | ⟨t, ht, htl⟩
  · have hfn := findNearest_nil defaultConfig st (rectCenter personDet.box) hempty
    rw [updateOneDetection_new defaultConfig now st personDet hfn, rectCenter_personDet]
    exact scenarioC_tail now _
      (updateTrackedPerson now (0, 0)
        { id := st.nextPersonID, lastSeen := now, positions := [(0, 0)],
          loiteringTime := 0, firstSeen := now, lastSuspiciousMovement := 0,
          lastLogTimes := fun _ => none })
      (by rw [hempty]; rfl) (updateTrackedPerson_getLast now (0, 0) _) rfl
  · have hd : distPx (rectCenter personDet.box) (0, 0) < defaultConfig.proximityThreshold := by
      rw [rectCenter_personDet, distPx_self]
      norm_num [defaultConfig]
    have hfn : findNearestTrackedPerson defaultConfig st (rectCenter personDet.box) =
        some t.id := by
      rw [findNearest_singleton defaultConfig st (rectCenter personDet.box) t (0, 0) ht htl,
        if_pos hd]
    rw [updateOneDetection_matched defaultConfig now st personDet t.id hfn,
      rectCenter_personDet]
    exact scenarioC_tail now _ (updateTrackedPerson now (0, 0) t)
      (by rw [ht]; show List.map _ [t] = _; rw [List.map_singleton, if_pos rfl])
      (updateTrackedPerson_getLast now (0, 0) t) rfl

lemma scenarioC_run : ∀ (times : List ℝ) (st : DetectorState),
    (∃ t, st.trackedPeople = [t] ∧ t.positions.getLast? = some (0, 0)) →
    ∃ t, ((times.foldl
        (fun s now => (detectShoplifting defaultConfig now [personDet] s).2)
        st).trackedPeople = [t] ∧ t.positions.getLast? = some (0, 0)) := by
  intro times
  induction times with
  | nil => intro st h; exact h
  | cons n rest ih =>
      intro st h
      exact ih _ (scenarioC_step st n (Or.inr h))

end SL

/-- Claim C1: the associator processes each detection by centroid and greedy
nearest matching.  When the associator returns a match, the matched track is
within the proximity threshold of the detection centroid and is nearest
among all tracks with a recorded position, and the update refreshes exactly
that track (appending the centroid and stamping `lastSeen := now`) while
leaving the identifier counter alone; when it returns no match, all tracks
are at or beyond the threshold and a fresh track is allocated under the next
identifier, holding the new centroid (twice, by creation plus the
unconditional append) and `firstSeen = lastSeen = now`.  In particular,
feeding the same detection location repeatedly from an empty store leaves
exactly one track after every cycle. -/
theorem C1_greedy_nearest_association :
    (∀ (cfg : SL.Config) (now : ℝ) (st : SL.DetectorState)
        (person : SL.DetectionResult) (tid : ℤ),
      SL.findNearestTrackedPerson cfg st (rectCenter person.box) = some tid →
        (∃ u ∈ st.trackedPeople, u.id = tid ∧ ∃ lp, u.positions.getLast? = some lp ∧
          distPx (rectCenter person.box) lp < cfg.proximityThreshold ∧
          ∀ v ∈ st.trackedPeople, ∀ lp', v.positions.getLast? = some lp' →
            distPx (rectCenter person.box) lp ≤ distPx (rectCenter person.box) lp') ∧
        SL.updateOneDetection cfg now st person =
          { trackedPeople := st.trackedPeople.map (fun t =>
              if t.id = tid then SL.updateTrackedPerson now (rectCenter person.box) t
              else t)
            nextPersonID := st.nextPersonID }) ∧
    (∀ (cfg : SL.Config) (now : ℝ) (st : SL.DetectorState)
        (person : SL.DetectionResult),
      SL.findNearestTrackedPerson cfg st (rectCenter person.box) = none →
        (∀ v ∈ st.trackedPeople, ∀ lp, v.positions.getLast? = some lp →
          cfg.proximityThreshold ≤ distPx (rectCenter person.box) lp) ∧
        ∃ newT, SL.updateOneDetection cfg now st person =
          { trackedPeople := st.trackedPeople ++ [newT]
            nextPersonID := st.nextPersonID + 1 } ∧
          newT.id = st.nextPersonID ∧
          newT.positions = [rectCenter person.box, rectCenter person.box] ∧
          newT.firstSeen = now ∧ newT.lastSeen = now) ∧
    (∀ (now : ℝ) (c : Point) (t : SL.TrackedPerson),
      (SL.updateTrackedPerson now c t).lastSeen = now ∧
      (SL.updateTrackedPerson now c t).id = t.id ∧
      (SL.updateTrackedPerson now c t).positions.getLast? = some c) ∧
    (∀ times : List ℝ, times ≠ [] →
      (times.foldl
        (fun s now => (SL.detectShoplifting SL.defaultConfig now [SL.personDet] s).2)
        SL.newShopliftingDetector).trackedPeople.length = 1) := by
  refine ⟨?_, ?_, ?_, ?_⟩
  · intro cfg now st person tid h
    exact ⟨SL.findNearest_some_spec cfg st (rectCenter person.box) tid h,
      SL.updateOneDetection_matched cfg now st person tid h⟩
  · intro cfg now st person h
    refine ⟨SL.findNearest_none_spec cfg st (rectCenter person.box) h, ?_⟩
    refine ⟨_, SL.updateOneDetection_new cfg now st person h, rfl, ?_, rfl, rfl⟩
    exact SL.updateTrackedPerson_newTrack now (rectCenter person.box) st.nextPersonID
  · intro now c t
    exact ⟨rfl, rfl, SL.updateTrackedPerson_getLast now c t⟩
  · intro times hne
    cases times with
    | nil => exact absurd rfl hne
    | cons n rest =>
        have h1 := SL.scenarioC_step SL.newShopliftingDetector n (Or.inl rfl)
        have h2 := SL.scenarioC_run rest _ h1
        obtain ⟨t, ht, _⟩ := h2
        show (rest.foldl _ ((SL.detectShoplifting SL.defaultConfig n [SL.personDet]
          SL.newShopliftingDetector).2)).trackedPeople.length = 1
        rw [ht]
        rfl

namespace SL

/-! Identifier-bound invariant lemmas. -/

lemma updateOneDetection_idBound (cfg : Config) (now : ℝ) (st : DetectorState)
    (p : DetectionResult) (h : idBound st) :
    idBound (updateOneDetection cfg now st p) ∧
    st.nextPersonID ≤ (updateOneDetection cfg now st p).nextPersonID := by
  cases hfn : findNearestTrackedPerson cfg st (rectCenter p.box) with
  | some tid =>
      rw [updateOneDetection_matched cfg now st p tid hfn]
      refine ⟨?_, le_refl _⟩
      intro t ht
      obtain ⟨u, hu, hut⟩ := List.mem_map.mp ht
      have hid : t.id = u.id := by
        rw [← hut]
        by_cases hc : u.id = tid
        · rw [if_pos hc]; rfl
        · rw [if_neg hc]
      show t.id < st.nextPersonID
      rw [hid]
      exact h u hu
  | none =>
      rw [updateOneDetection_new cfg now st p hfn]
      refine ⟨?_, le_of_lt (lt_add_one _)⟩
      intro t ht
      show t.id < st.nextPersonID + 1
      rcases List.mem_append.mp ht with h1 | h1
      · exact lt_trans (h t h1) (lt_add_one _)
      · rcases List.mem_singleton.mp h1 with rfl
        exact lt_add_one _

lemma updateTracking_idBound (cfg : Config) (now : ℝ) :
    ∀ (people : List DetectionResult) (st : DetectorState), idBound st →
      idBound (updateTracking cfg now people st) ∧
      st.nextPersonID ≤ (updateTracking cfg now people st).nextPersonID := by
  intro people
  induction people with
  | nil => intro st h; exact ⟨h, le_refl _⟩
  | cons p ps ih =>
      intro st h
      have hstep := updateOneDetection_idBound cfg now st p h
      have hrec := ih (updateOneDetection cfg now st p) hstep.1
      exact ⟨hrec.1, le_trans hstep.2 hrec.2⟩

lemma analyzeBehaviors_snd_nextID (cfg : Config) (now : ℝ)
    (vs : List DetectionResult) (st : DetectorState) :
    (analyzeBehaviors cfg now vs st).2.nextPersonID = st.nextPersonID := rfl

lemma analyzeBehaviors_idBound (cfg : Config) (now : ℝ)
    (vs : List DetectionResult) (st : DetectorState) (h : idBound st) :
    idBound (analyzeBehaviors cfg now vs st).2 := by
  intro t ht
  rw [analyzeBehaviors_tracks] at ht
  obtain ⟨u, hu, hut⟩ := List.mem_map.mp ht
  have hid : t.id = u.id := by rw [← hut, trackBehaviors_snd_id]
  show t.id < (analyzeBehaviors cfg now vs st).2.nextPersonID
  rw [analyzeBehaviors_snd_nextID, hid]
  exact h u hu

lemma cleanupOldTracking_idBound (cfg : Config) (now : ℝ) (st : DetectorState)
    (h : idBound st) : idBound (cleanupOldTracking cfg now st) := by
  intro t ht
  unfold cleanupOldTracking at ht
  exact h t (List.mem_of_mem_filter ht)

lemma detectShoplifting_idBound (cfg : Config) (now : ℝ)
    (dets : List DetectionResult) (st : DetectorState) (h : idBound st) :
    idBound (detectShoplifting cfg now dets st).2 ∧
    st.nextPersonID ≤ (detectShoplifting cfg now dets st).2.nextPersonID := by
  rw [detectShoplifting_snd]
  have hu := updateTracking_idBound cfg now (filterPeople dets) st h
  have ha := analyzeBehaviors_idBound cfg now (filterValuableObjects dets) _ hu.1
  refine ⟨cleanupOldTracking_idBound cfg now _ ha, ?_⟩
  show st.nextPersonID ≤ (analyzeBehaviors cfg now (filterValuableObjects dets)
    (updateTracking cfg now (filterPeople dets) st)).2.nextPersonID
  rw [analyzeBehaviors_snd_nextID]
  exact hu.2

end SL

/-- Claim C2: after every full per-frame cycle each surviving track has been
seen within the tracker timeout (the end-of-cycle sweep removes violators);
identifiers stay below the monotone fresh-identifier counter through every
cycle (so once a track is expired and removed its identifier can never be
reissued), and a detection that matches no track — in particular one
arriving at an expired track's location after its removal — creates a track
carrying the next fresh identifier, strictly larger than the expired
track's identifier and every stored identifier. -/
theorem C2_expiry_no_resurrection :
    (∀ (cfg : SL.Config) (now : ℝ) (dets : List SL.DetectionResult)
        (st : SL.DetectorState),
      ∀ t ∈ ((SL.detectShoplifting cfg now dets st).2).trackedPeople,
        now - t.lastSeen ≤ cfg.trackerTimeout) ∧
    (∀ (cfg : SL.Config) (now : ℝ) (dets : List SL.DetectionResult)
        (st : SL.DetectorState), SL.idBound st →
      SL.idBound ((SL.detectShoplifting cfg now dets st).2) ∧
      st.nextPersonID ≤ ((SL.detectShoplifting cfg now dets st).2).nextPersonID) ∧
    SL.idBound SL.newShopliftingDetector ∧
    (∀ (cfg : SL.Config) (now : ℝ) (st : SL.DetectorState)
        (person : SL.DetectionResult) (x : ℤ),
      SL.idBound st → x < st.nextPersonID →
      SL.findNearestTrackedPerson cfg st (rectCenter person.box) = none →
      ∃ newT, SL.updateOneDetection cfg now st person =
        { trackedPeople := st.trackedPeople ++ [newT]
          nextPersonID := st.nextPersonID + 1 } ∧
        newT.id = st.nextPersonID ∧ x < newT.id ∧
        ∀ u ∈ st.trackedPeople, u.id < newT.id) := by
  refine ⟨?_, ?_, ?_, ?_⟩
  · intro cfg now dets st t ht
    rw [SL.detectShoplifting_snd] at ht
    exact SL.cleanupOldTracking_bound cfg now _ t ht
  · intro cfg now dets st h
    exact SL.detectShoplifting_idBound cfg now dets st h
  · intro t ht
    exact absurd ht (List.not_mem_nil t)
  · intro cfg now st person x hbound hx hfn
    refine ⟨_, SL.updateOneDetection_new cfg now st person hfn, rfl, hx, ?_⟩
    intro u hu
    exact hbound u hu

namespace SL

/-! Resource-bounding: two far-apart detections. -/

/-- Keeping every track: the sweep removes nothing when all tracks are
fresh. -/
lemma cleanupOldTracking_of_fresh (cfg : Config) (now : ℝ) (st : DetectorState)
    (h : ∀ t ∈ st.trackedPeople, ¬ now - t.lastSeen > cfg.trackerTimeout) :
    cleanupOldTracking cfg now st = st := by
  unfold cleanupOldTracking
  have hf : st.trackedPeople.filter
      (fun tracked => if now - tracked.lastSeen > cfg.trackerTimeout then false else true) =
      st.trackedPeople := by
    rw [List.filter_eq_self]
    intro t ht
    rw [if_neg (h t ht)]
  rw [hf]

/-- Feeding two detections 1000 px apart into an empty store under a
capacity-one configuration leaves two tracks after the full cycle. -/
lemma two_far_tracks :
    ((detectShoplifting cfgC8 0 [personDet, farPersonDet]
      newShopliftingDetector).2).trackedPeople.length = 2 := by
  have hpd : filterPeople [personDet, farPersonDet] = [personDet, farPersonDet] := by
    simp [filterPeople, personDet, farPersonDet]
  have hvd : filterValuableObjects [personDet, farPersonDet] = [] := by
    simp [filterValuableObjects, personDet, farPersonDet, getValuableItems]
  have hcf : rectCenter farPersonDet.box = (1000, 0) := by
    norm_num [rectCenter, Rectangle.dx, Rectangle.dy, farPersonDet, Int.tdiv]
  rw [detectShoplifting_snd, hpd, hvd]
  have hstep : updateTracking cfgC8 0 [personDet, farPersonDet] newShopliftingDetector =
      updateOneDetection cfgC8 0
        (updateOneDetection cfgC8 0 newShopliftingDetector personDet) farPersonDet := rfl
  rw [hstep]
  have hfn1 := findNearest_nil cfgC8 newShopliftingDetector (rectCenter personDet.box) rfl
  rw [updateOneDetection_new cfgC8 0 newShopliftingDetector personDet hfn1,
    rectCenter_personDet]
  have hd2 : ¬ distPx (1000, 0) (0, 0) < cfgC8.proximityThreshold := by
    have h1000 : distPx (1000, 0) (0, 0) = 1000 :=
      distPx_eq_of_sq (by norm_num) (by norm_num [sqDist])
    rw [h1000]
    norm_num [cfgC8, defaultConfig]
  have hfn2 : findNearestTrackedPerson cfgC8
      { trackedPeople := newShopliftingDetector.trackedPeople ++
          [updateTrackedPerson 0 (0, 0)
            { id := newShopliftingDetector.nextPersonID, lastSeen := 0,
              positions := [(0, 0)], loiteringTime := 0, firstSeen := 0,
              lastSuspiciousMovement := 0, lastLogTimes := fun _ => none }]
        nextPersonID := newShopliftingDetector.nextPersonID + 1 }
      (rectCenter farPersonDet.box) = none := by
    rw [hcf]
    rw [findNearest_singleton cfgC8 _ (1000, 0) _ (0, 0) rfl
      (updateTrackedPerson_getLast 0 (0, 0) _), if_neg hd2]
  rw [updateOneDetection_new cfgC8 0 _ farPersonDet hfn2]
  have hfresh : ∀ t ∈ (analyzeBehaviors cfgC8 0 []
      { trackedPeople := ((newShopliftingDetector.trackedPeople) ++
          [updateTrackedPerson 0 (0, 0)
            { id := newShopliftingDetector.nextPersonID, lastSeen := 0,
              positions := [(0, 0)], loiteringTime := 0, firstSeen := 0,
              lastSuspiciousMovement := 0, lastLogTimes := fun _ => none }]) ++
          [updateTrackedPerson 0 (rectCenter farPersonDet.box)
            { id := newShopliftingDetector.nextPersonID + 1, lastSeen := 0,
              positions := [rectCenter farPersonDet.box], loiteringTime := 0,
              firstSeen := 0, lastSuspiciousMovement := 0,
              lastLogTimes := fun _ => none }]
        nextPersonID := newShopliftingDetector.nextPersonID + 1 + 1 }).2.trackedPeople,
      ¬ (0 : ℝ) - t.lastSeen > cfgC8.trackerTimeout := by
    intro t ht
    rw [analyzeBehaviors_tracks] at ht
    obtain ⟨u, hu, hut⟩ := List.mem_map.mp ht
    have hls : t.lastSeen = u.lastSeen := by rw [← hut, trackBehaviors_snd_lastSeen]
    have hu2 : u ∈ [updateTrackedPerson 0 (0, 0)
        { id := newShopliftingDetector.nextPersonID, lastSeen := 0,
          positions := [(0, 0)], loiteringTime := 0, firstSeen := 0,
          lastSuspiciousMovement := 0, lastLogTimes := fun _ => none },
        updateTrackedPerson 0 (rectCenter farPersonDet.box)
        { id := newShopliftingDetector.nextPersonID + 1, lastSeen := 0,
          positions := [rectCenter farPersonDet.box], loiteringTime := 0,
          firstSeen := 0, lastSuspiciousMovement := 0,
          lastLogTimes := fun _ => none }] := hu
    rcases List.mem_cons.mp hu2 with h1 | h1
    · subst h1; rw [hls]; norm_num [cfgC8, defaultConfig, updateTrackedPerson_lastSeen]
    · rcases List.mem_singleton.mp h1 with rfl
      rw [hls]
      norm_num [cfgC8, defaultConfig, updateTrackedPerson_lastSeen]
  rw [cleanupOldTracking_of_fresh cfgC8 0 _ hfresh, analyzeBehaviors_tracks,
    List.length_map]
  rfl

end SL

/-- Claim C8, as stated, is false on the code: the engine consults no
bounding policy when a new track is created.  With `maxTrackedPeople = 1`,
two simultaneous detections 1000 px apart turn an empty store into a store
of two tracks — more than the configured maximum. -/
theorem C8_counterexample :
    ((SL.detectShoplifting SL.cfgC8 0 [SL.personDet, SL.farPersonDet]
      SL.newShopliftingDetector).2).trackedPeople.length = 2 ∧
    (2 : ℤ) > SL.cfgC8.maxTrackedPeople := by
  refine ⟨SL.two_far_tracks, ?_⟩
  norm_num [SL.cfgC8, SL.defaultConfig]

/-- Claim C8, amended: the engine applies no bounding policy at all —
`maxTrackedPeople` is configured but never consulted (the whole per-frame
cycle is oblivious to its value), and creating new tracks can push the
track count beyond it; tracks are removed only by the expiry sweep. -/
theorem C8_no_bounding_policy :
    (∀ (cfg : SL.Config) (m : ℤ) (now : ℝ) (dets : List SL.DetectionResult)
        (st : SL.DetectorState),
      SL.detectShoplifting { cfg with maxTrackedPeople := m } now dets st =
        SL.detectShoplifting cfg now dets st) ∧
    ((SL.detectShoplifting SL.cfgC8 0 [SL.personDet, SL.farPersonDet]
      SL.newShopliftingDetector).2).trackedPeople.length = 2 ∧
    (2 : ℤ) > SL.cfgC8.maxTrackedPeople := by
  refine ⟨?_, SL.two_far_tracks, by norm_num [SL.cfgC8, SL.defaultConfig]⟩
  intro cfg m now dets st
  cases cfg
  rfl

namespace SL

/-! Non-empty position histories in every reachable state. -/

lemma updateOneDetection_nonempty (cfg : Config) (now : ℝ) (st : DetectorState)
    (p : DetectionResult)
    (h : ∀ t ∈ st.trackedPeople, ∃ c, t.positions.getLast? = some c) :
    ∀ t ∈ (updateOneDetection cfg now st p).trackedPeople,
      ∃ c, t.positions.getLast? = some c := by
  cases hfn : findNearestTrackedPerson cfg st (rectCenter p.box) with
  | some tid =>
      rw [updateOneDetection_matched cfg now st p tid hfn]
      intro t ht
      obtain ⟨u, hu, hut⟩ := List.mem_map.mp ht
      by_cases hc : u.id = tid
      · rw [← hut, if_pos hc]
        exact ⟨_, updateTrackedPerson_getLast now _ u⟩
      · rw [← hut, if_neg hc]
        exact h u hu
  | none =>
      rw [updateOneDetection_new cfg now st p hfn]
      intro t ht
      rcases List.mem_append.mp ht with h1 | h1
      · exact h t h1
      · rcases List.mem_singleton.mp h1 with rfl
        exact ⟨_, updateTrackedPerson_getLast now _ _⟩

lemma updateTracking_nonempty (cfg : Config) (now : ℝ) :
    ∀ (people : List DetectionResult) (st : DetectorState),
      (∀ t ∈ st.trackedPeople, ∃ c, t.positions.getLast? = some c) →
      ∀ t ∈ (updateTracking cfg now people st).trackedPeople,
        ∃ c, t.positions.getLast? = some c := by
  intro people
  induction people with
  | nil => intro st h; exact h
  | cons p ps ih =>
      intro st h
      exact ih _ (updateOneDetection_nonempty cfg now st p h)

lemma detectShoplifting_nonempty (cfg : Config) (now : ℝ)
    (dets : List DetectionResult) (st : DetectorState)
    (h : ∀ t ∈ st.trackedPeople, ∃ c, t.positions.getLast? = some c) :
    ∀ t ∈ ((detectShoplifting cfg now dets st).2).trackedPeople,
      ∃ c, t.positions.getLast? = some c := by
  rw [detectShoplifting_snd]
  intro t ht
  unfold cleanupOldTracking at ht
  have ht2 := List.mem_of_mem_filter ht
  rw [analyzeBehaviors_tracks] at ht2
  obtain ⟨u, hu, hut⟩ := List.mem_map.mp ht2
  have hpos : t.positions = u.positions := by
    rw [← hut, trackBehaviors_snd_positions]
  rw [hpos]
  exact updateTracking_nonempty cfg now (filterPeople dets) st h u hu

/-- Every reachable state has only tracks with a non-empty position
history. -/
lemma reachable_nonempty (cfg : Config) (st : DetectorState)
    (h : Reachable cfg st) :
    ∀ t ∈ st.trackedPeople, ∃ c, t.positions.getLast? = some c := by
  induction h with
  | init => intro t ht; exact absurd ht (List.not_mem_nil t)
  | step st now dets hr ih => exact detectShoplifting_nonempty cfg now dets st ih

end SL

/-- Claim C10: in every reachable detector state each stored track has a
non-empty position history — its last element exists — so the unguarded
accesses `Positions[len(Positions)-1]` in the analyzers and in nearest-track
matching are always in bounds; concretely, one cycle from the fresh store
yields exactly one track whose recorded last position is the detection
centroid. -/
theorem C10_positions_never_empty :
    (∀ (cfg : SL.Config) (st : SL.DetectorState), SL.Reachable cfg st →
      ∀ t ∈ st.trackedPeople, ∃ c, t.positions.getLast? = some c) ∧
    (∀ (cfg : SL.Config) (st : SL.DetectorState), SL.Reachable cfg st →
      ∀ t ∈ st.trackedPeople, t.positions ≠ []) ∧
    (∃ t, ((SL.detectShoplifting SL.defaultConfig 0 [SL.personDet]
        SL.newShopliftingDetector).2).trackedPeople = [t] ∧
      t.positions.getLast? = some (0, 0)) := by
  refine ⟨SL.reachable_nonempty, ?_, ?_⟩
  · intro cfg st h t ht hnil
    obtain ⟨c, hc⟩ := SL.reachable_nonempty cfg st h t ht
    rw [hnil] at hc
    simp at hc
  · exact SL.scenarioC_step SL.newShopliftingDetector 0 (Or.inl rfl)
